import Mathlib

/-!
# Toolkit: HTTP convenience helpers

A shallow embedding of `go/toolkit/tools.go`: random strings
(`RandomString`), slugs (`CreateSlug`), multipart upload handling
(`UploadFiles`, `UploadOneFile`), the JSON helpers (`ReadJSON`, `WriteJSON`,
`ErrorJSON`) and the remote JSON post (`PostJSONToRemote`).

Conventions of the embedding.

* Go `int` / `int64` values are `Int`; byte slices are `List Nat`.
* A Go `error` is `Option String` (its `Error()` text), `none` being `nil`.
* A Go string that is only compared, joined or printed is a `String`; one
  whose bytes matter (a body, the text handed to the JSON encoder) is the
  `List Nat` of its bytes.
* A variadic parameter is the `List` of the arguments given.
* What the platform decides (file system answers, the clock, the random
  source, the standard library's content sniffing) is passed in as an
  explicit environment record, so every function below is a pure function
  of its inputs and of those answers.
* Effects on the outside world are recorded in an event log.
-/

set_option autoImplicit false

namespace Toolkit

set_option maxRecDepth 20000

/-! ## Constants and configuration -/

def gigabyte : Int := 1024 * 1024 * 1024

def megabyte : Int := 1024 * 1024

/-- Receiver of every helper: the caller's configuration. -/
structure Tools where
  MaxJSONSize : Int
  AllowUnknownFields : Bool
  MaxFileSize : Int
  AllowedFileTypes : List String

/-- The zero value `var testTools Tools`. -/
def Tools.zero : Tools :=
  { MaxJSONSize := 0, AllowUnknownFields := false, MaxFileSize := 0, AllowedFileTypes := [] }

/-- ASCII text as the bytes it is stored in. -/
def bytes (s : String) : List Nat := s.data.map Char.toNat

/-! ## Random strings -/

/-- Lower case alphabet: `p[i] = 'a' + byte(i)` for `i < 26`. -/
def loweralpha : String :=
  String.mk ((List.range 26).map fun i => Char.ofNat ('a'.toNat + i))

/-- The decimal digits `0` to `9` joined into one string. -/
def zerototen : String :=
  String.join ((List.range 10).map fun i => toString i)

/-- Model of `strings.ToUpper` (on the letters `a`-`z` it is the ASCII upper case). -/
def ToUpper (s : String) : String := String.mk (s.data.map Char.toUpper)

def createRandomStringSource : String :=
  let lowerAlphaCharacters := loweralpha
  let specials := "~!@#$"
  lowerAlphaCharacters ++ ToUpper lowerAlphaCharacters ++ zerototen ++ specials

/-- `RandomString n`: `prime idx` is the value `rand.Prime` hands back in
iteration `idx`; `Uint64()` keeps its low 64 bits. -/
def RandomString (n : Nat) (prime : Nat → Nat) : String :=
  let randomRunes := createRandomStringSource.data
  String.mk ((List.range n).map fun idx =>
    let x := prime idx % 2 ^ 64
    let y := randomRunes.length % 2 ^ 64
    randomRunes.getD (x % y) ' ')

/-! ## Uploads: data model -/

/-- Information saved about an uploaded file. -/
structure UploadedFile where
  NewFileName : String
  OriginalFileName : String
  FileSize : Int
  deriving DecidableEq, Repr

/-- One file part of the parsed form (`multipart.FileHeader`): its name, its
bytes, and the errors its stream reports when opened, read and rewound. -/
structure FileHeader where
  Filename : String
  content : List Nat
  openErr : Option String
  readErr : Option String
  seekErr : Option String

/-- An opened part (`multipart.File`): the bytes and the read position. -/
structure File where
  content : List Nat
  pos : Nat

/-- The request as the upload handler sees it: the outcome of
`ParseMultipartForm` for a given memory limit, and `MultipartForm.File`
listed in the order the `range` over the map yields it. -/
structure Request where
  ParseMultipartForm : Int → Option String
  File : List (String × List FileHeader)

/-- Effects of the upload handler on the file system. -/
inductive Event
  | mkdirAll (path : String)
  | create (path : String)
  | copied (path : String) (data : List Nat)
  | copyFailed (path : String)
  deriving DecidableEq, Repr

/-- Answers of the platform during an upload. Parts are numbered in
processing order; `now k` is `time.Now().Unix()` while part `k` is handled
and `prime k idx` the prime drawn for character `idx` of its random name. -/
structure Env where
  DetectContentType : List Nat → String
  EqualFold : String → String → Bool
  Join : String → String → String
  statNotExist : String → Bool
  MkdirAll : String → Option String
  Create : String → Option String
  copyErr : String → Option String
  now : Nat → Int
  prime : Nat → Nat → Nat

/-! ## Uploads: operations -/

/-- Creates a directory, and all necessary parents, if it does not exist. -/
def CreateDirectoryIfNotExist (env : Env) (path : String) (log : List Event) :
    Option String × List Event :=
  if env.statNotExist path then
    match env.MkdirAll path with
    | some err => (some err, log)
    | none => (none, log ++ [Event.mkdirAll path])
  else (none, log)

/-- Scan of `filepath.Ext` from the last character backwards: `acc` holds the
characters already passed; stop at the first dot or at a path separator. -/
def extAux : List Char → List Char → List Char
  | [], _ => []
  | c :: rest, acc =>
    if c = '/' then [] else if c = '.' then c :: acc else extAux rest (c :: acc)

/-- Model of `filepath.Ext` (Unix separator): the suffix beginning at the
final dot of the final path element, empty when there is none. -/
def Ext (path : String) : String := String.mk (extAux path.data.reverse [])

/-- `infile.Read(p)` for a buffer of `n` bytes: end of file when nothing is
left, else the next bytes, at most `n`; returns the bytes read, the error
and the stream advanced. -/
def File.Read (f : File) (n : Nat) (readErr : Option String) :
    List Nat × Option String × File :=
  match readErr with
  | some err => ([], some err, f)
  | none =>
    let got := (f.content.drop f.pos).take n
    if got.length = 0 then ([], some "EOF", f)
    else (got, none, { f with pos := f.pos + got.length })

/-- `infile.Seek(0, 0)`. -/
def File.Seek0 (f : File) (seekErr : Option String) : Option String × File :=
  match seekErr with
  | some err => (some err, f)
  | none => (none, { f with pos := 0 })

/-- The buffer `first512bytesBuffer` after the read: `make([]byte, 512)` with
the bytes read stored at its front. -/
def fillBuffer (got : List Nat) : List Nat :=
  got ++ (List.replicate 512 0).drop got.length

/-- The loop over `tools.AllowedFileTypes`, started with `allowed = false`. -/
def allowedLoop (EqualFold : String → String → Bool) (fileType : String) :
    List String → Bool → Bool
  | [], allowed => allowed
  | allowedType :: rest, allowed =>
    allowedLoop EqualFold fileType rest
      (if EqualFold fileType allowedType then true else allowed)

/-- The value of `allowed` once the check of the file type is done. -/
def typeAllowed (tools : Tools) (env : Env) (first512bytesBuffer : List Nat) : Bool :=
  let fileType := env.DetectContentType first512bytesBuffer
  if tools.AllowedFileTypes.length > 0 then
    allowedLoop env.EqualFold fileType tools.AllowedFileTypes false
  else true

/-- The output name of part `k`. -/
def newFileName (env : Env) (renameFile : Bool) (k : Nat) (header : FileHeader) : String :=
  if renameFile then
    toString (env.now k) ++ "_" ++ RandomString 20 (env.prime k) ++ Ext header.Filename
  else header.Filename

/-- The function literal `UploadFiles` runs for part `k`: it returns the
descriptor list and the error, as the Go closure does, and the event log. -/
def uploadPart (tools : Tools) (env : Env) (uploadDirectory : String) (renameFile : Bool)
    (k : Nat) (header : FileHeader) (uploadedFiles : List UploadedFile) (log : List Event) :
    List UploadedFile × Option String × List Event :=
  match header.openErr with
  | some err => ([], some err, log)
  | none =>
    let infile : File := { content := header.content, pos := 0 }
    match infile.Read 512 header.readErr with
    | (_, some err, _) => ([], some err, log)
    | (got, none, infile) =>
      let first512bytesBuffer := fillBuffer got
      if !typeAllowed tools env first512bytesBuffer then
        ([], some "uploaded file type is not permitted", log)
      else
        match infile.Seek0 header.seekErr with
        | (some err, _) => ([], some err, log)
        | (none, infile) =>
          let NewFileName := newFileName env renameFile k header
          let path := env.Join uploadDirectory NewFileName
          match env.Create path with
          | some err => ([], some err, log)
          | none =>
            let log := log ++ [Event.create path]
            match env.copyErr path with
            | some err => ([], some err, log ++ [Event.copyFailed path])
            | none =>
              let data := infile.content.drop infile.pos
              let uploadedFile : UploadedFile :=
                { NewFileName := NewFileName
                  OriginalFileName := header.Filename
                  FileSize := data.length }
              (uploadedFiles ++ [uploadedFile], none, log ++ [Event.copied path data])

/-- The two nested `range` loops of `UploadFiles` over the parts in
processing order, `k` being the number of the next part. -/
def uploadLoop (tools : Tools) (env : Env) (uploadDirectory : String) (renameFile : Bool) :
    Nat → List FileHeader → List UploadedFile → List Event →
      List UploadedFile × Option String × List Event
  | _, [], uploadedFiles, log => (uploadedFiles, none, log)
  | k, header :: rest, uploadedFiles, log =>
    match uploadPart tools env uploadDirectory renameFile k header uploadedFiles log with
    | (uploadedFiles, some err, log) => (uploadedFiles, some err, log)
    | (uploadedFiles, none, log) =>
      uploadLoop tools env uploadDirectory renameFile (k + 1) rest uploadedFiles log

/-- All file parts of the form in processing order. -/
def Request.parts (request : Request) : List FileHeader :=
  (request.File.map Prod.snd).flatten

/-- What a call of `UploadFiles` leaves behind: the two return values, the
event log and the receiver (whose `MaxFileSize` the call may have set). -/
structure UploadResult where
  files : List UploadedFile
  err : Option String
  log : List Event
  tools : Tools

/-- `UploadFiles(request, uploadDirectory, rename...)`. -/
def UploadFiles (tools : Tools) (env : Env) (request : Request) (uploadDirectory : String)
    (rename : List Bool) : UploadResult :=
  let renameFile := match rename with
    | [] => true
    | r :: _ => r
  let tools := if tools.MaxFileSize = 0 then { tools with MaxFileSize := gigabyte } else tools
  match CreateDirectoryIfNotExist env uploadDirectory [] with
  | (some err, log) => { files := [], err := some err, log := log, tools := tools }
  | (none, log) =>
    match request.ParseMultipartForm tools.MaxFileSize with
    | some _ =>
      { files := [], err := some "the uploaded file is too big", log := log, tools := tools }
    | none =>
      match uploadLoop tools env uploadDirectory renameFile 0 request.parts [] log with
      | (uploadedFiles, err, log) =>
        { files := uploadedFiles, err := err, log := log, tools := tools }

/-- Result of `UploadOneFile`: the two return values, or a run-time panic. -/
inductive OneFileResult
  | returned (file : Option UploadedFile) (err : Option String)
  | panicked (msg : String)
  deriving DecidableEq, Repr

/-- `UploadOneFile(request, uploadDirectory, rename...)`. -/
def UploadOneFile (tools : Tools) (env : Env) (request : Request) (uploadDirectory : String)
    (rename : List Bool) : OneFileResult :=
  let renameFile := match rename with
    | [] => true
    | r :: _ => r
  let r := UploadFiles tools env request uploadDirectory [renameFile]
  match r.err with
  | some err => OneFileResult.returned none (some err)
  | none =>
    match r.files with
    | [] => OneFileResult.panicked "runtime error: index out of range [0] with length 0"
    | file :: _ => OneFileResult.returned (some file) none

/-! ## Concrete platform answers used to run the handler -/

/-- A content sniffer that knows the JPEG and PNG signatures and calls
everything else `application/octet-stream`. -/
def sniffImage (data : List Nat) : String :=
  if data.take 3 = [0xFF, 0xD8, 0xFF] then "image/jpeg"
  else if data.take 8 = [0x89, 0x50, 0x4E, 0x47, 0x0D, 0x0A, 0x1A, 0x0A] then "image/png"
  else "application/octet-stream"

/-- Equality of two strings ignoring the case of ASCII letters. -/
def asciiEqualFold (s t : String) : Bool :=
  s.data.map Char.toLower == t.data.map Char.toLower

/-- A platform on which every file operation succeeds, the clock reads
`1700000000` and the random source hands back `2 ^ 66 + 7 * k + idx`. -/
def testEnv : Env :=
  { DetectContentType := sniffImage
    EqualFold := asciiEqualFold
    Join := fun dir name => dir ++ name
    statNotExist := fun _ => false
    MkdirAll := fun _ => none
    Create := fun _ => none
    copyErr := fun _ => none
    now := fun _ => 1700000000
    prime := fun k idx => 2 ^ 66 + 7 * k + idx }

/-- A part named `test_image.jpg` holding a JPEG header. -/
def jpegPart : FileHeader :=
  { Filename := "./testdata/test_image.jpg"
    content := [0xFF, 0xD8, 0xFF, 0xE0, 0x00, 0x10, 0x4A, 0x46, 0x49, 0x46]
    openErr := none, readErr := none, seekErr := none }

/-- A request whose form parses and holds the given parts under the field `file`. -/
def formRequest (parts : List FileHeader) : Request :=
  { ParseMultipartForm := fun _ => none, File := [("file", parts)] }

/-! ## Uploads: what the loop computes, part by part -/

/-- The descriptor `UploadFiles` builds for part `k` when nothing fails. -/
def descriptorOf (env : Env) (renameFile : Bool) (k : Nat) (header : FileHeader) :
    UploadedFile :=
  { NewFileName := newFileName env renameFile k header
    OriginalFileName := header.Filename
    FileSize := header.content.length }

/-- The error part `k` ends with, `none` when it is stored. -/
def partError (tools : Tools) (env : Env) (dir : String) (rf : Bool) (k : Nat)
    (header : FileHeader) : Option String :=
  (uploadPart tools env dir rf k header [] []).2.1

/-- The descriptors of the parts `parts`, numbered from `k`. -/
def descriptorsFrom (env : Env) (rf : Bool) : Nat → List FileHeader → List UploadedFile
  | _, [] => []
  | k, header :: rest => descriptorOf env rf k header :: descriptorsFrom env rf (k + 1) rest

/-- The error the loop stops with: that of the first part that fails. -/
def loopError (tools : Tools) (env : Env) (dir : String) (rf : Bool) :
    Nat → List FileHeader → Option String
  | _, [] => none
  | k, header :: rest =>
    match partError tools env dir rf k header with
    | some e => some e
    | none => loopError tools env dir rf (k + 1) rest

/-- The error `UploadFiles` returns before it looks at any part: from the
creation of the directory or from parsing the form. -/
def setupError (tools : Tools) (env : Env) (request : Request) (dir : String) :
    Option String :=
  match (CreateDirectoryIfNotExist env dir []).1 with
  | some err => some err
  | none =>
    match request.ParseMultipartForm
        (if tools.MaxFileSize = 0 then gigabyte else tools.MaxFileSize) with
    | some _ => some "the uploaded file is too big"
    | none => none

/-- The event log once the directory is there. -/
def setupLog (env : Env) (dir : String) : List Event :=
  (CreateDirectoryIfNotExist env dir []).2

/-- The request with its file parts replaced by `parts`. -/
def Request.withParts (request : Request) (parts : List FileHeader) : Request :=
  { request with File := [("file", parts)] }

/-! ## Uploads: more sample parts -/

/-- A part named `logo.png` holding a PNG header. -/
def pngPart : FileHeader :=
  { Filename := "logo.png"
    content := [0x89, 0x50, 0x4E, 0x47, 0x0D, 0x0A, 0x1A, 0x0A, 0x00]
    openErr := none, readErr := none, seekErr := none }

/-- A content sniffer with the library's rule for plain text only: data
without a binary byte is `text/plain; charset=utf-8`, anything else
`application/octet-stream`. -/
def sniffText (data : List Nat) : String :=
  if data.any (fun b => b ≤ 0x08 || b == 0x0B || (0x0E ≤ b && b ≤ 0x1A) || (0x1C ≤ b && b ≤ 0x1F))
  then "application/octet-stream" else "text/plain; charset=utf-8"

/-- The five byte part `hello`. -/
def helloPart : FileHeader :=
  { Filename := "hello.txt", content := bytes "hello"
    openErr := none, readErr := none, seekErr := none }

/-- A part without any byte. -/
def emptyPart : FileHeader :=
  { Filename := "empty.txt", content := []
    openErr := none, readErr := none, seekErr := none }

/-! ## JSON: reading a request body -/

/-- Errors `Decode` can return, with the distinctions `ReadJSON` makes:
the three error types it looks for with `errors.As`, the two sentinels it
looks for with `errors.Is`, and any other error, known by its text. -/
inductive DecodeError
  | SyntaxError (msg : String) (Offset : Int)
  | ErrUnexpectedEOF
  | UnmarshalTypeError (msg : String) (Field : String) (Offset : Int)
  | EOF
  | InvalidUnmarshalError (msg : String)
  | other (msg : String)
  deriving DecidableEq, Repr

/-- The text `err.Error()`. -/
def DecodeError.Error : DecodeError → String
  | DecodeError.SyntaxError msg _ => msg
  | DecodeError.ErrUnexpectedEOF => "unexpected EOF"
  | DecodeError.UnmarshalTypeError msg _ _ => msg
  | DecodeError.EOF => "EOF"
  | DecodeError.InvalidUnmarshalError msg => msg
  | DecodeError.other msg => msg

/-- What the decoder's scanner finds in the bytes it has: the end of a value
after `n` bytes; a byte it rejects, `offset` bytes in; or no end yet, where
`endsAtEOF` tells whether the value is complete if the input ends here (a
number, a literal or a string at top level). -/
inductive Scan
  | value (n : Nat)
  | syntaxError (msg : String) (offset : Nat)
  | needMore (endsAtEOF : Bool)
  deriving DecidableEq, Repr

/-- What unmarshalling a value into `&struct{}{}` can report. -/
inductive EmptyStructError
  | typeError (msg : String) (Offset : Int)
  | unknownField (name : String)
  deriving DecidableEq, Repr

/-- The standard library as `ReadJSON` uses it: the scanner of
`encoding/json`, unmarshalling into the empty struct (with unknown fields
disallowed or not), and the `%q` verb of `fmt`. -/
structure JSONLib where
  scan : List Nat → Scan
  unmarshalEmpty : Bool → List Nat → Option EmptyStructError
  Quote : String → String

def EmptyStructError.toDecodeError (lib : JSONLib) : EmptyStructError → DecodeError
  | EmptyStructError.typeError msg Offset => DecodeError.UnmarshalTypeError msg "" Offset
  | EmptyStructError.unknownField name =>
    DecodeError.other ("json: unknown field " ++ lib.Quote name)

/-- The destination `data`: what unmarshalling one complete JSON value into
it reports, with unknown fields disallowed or not. -/
abbrev Destination := Bool → List Nat → Option DecodeError

/-- How the size-limited body ends: at its end of file, or with the error
"http: request body too large". -/
inductive ReadEnd
  | EOF
  | tooLarge
  deriving DecidableEq, Repr

/-- Model of `http.MaxBytesReader(w, body, n)`: the bytes the reader delivers
and how it ends; a negative limit counts as 0. -/
def MaxBytesReader (body : List Nat) (n : Int) : List Nat × ReadEnd :=
  let n := if n < 0 then 0 else n
  (body.take n.toNat, if (body.length : Int) ≤ n then ReadEnd.EOF else ReadEnd.tooLarge)

/-- A `json.Decoder` over a reader: the bytes not yet consumed, how the
reader ends, the number of bytes consumed, the sticky error `dec.err`, and
the `DisallowUnknownFields` switch. -/
structure Decoder where
  buf : List Nat
  ending : ReadEnd
  consumed : Nat
  err : Option DecodeError
  disallowUnknown : Bool

def NewDecoder (r : List Nat × ReadEnd) : Decoder :=
  { buf := r.1, ending := r.2, consumed := 0, err := none, disallowUnknown := false }

def Decoder.DisallowUnknownFields (dec : Decoder) : Decoder :=
  { dec with disallowUnknown := true }

def isSpace (c : Nat) : Bool := c == 32 || c == 9 || c == 13 || c == 10

def nonSpace (b : List Nat) : Bool := b.any fun c => !isSpace c

/-- Model of `dec.Decode(v)`: read one whole value, then unmarshal it with
`unmarshal`. A read error is looked at only when the bytes at hand hold no
complete value; a scanner or reader error sticks to the decoder, an
unmarshal error does not. -/
def Decoder.Decode (lib : JSONLib) (unmarshal : List Nat → Option DecodeError)
    (dec : Decoder) : Option DecodeError × Decoder :=
  match dec.err with
  | some err => (some err, dec)
  | none =>
    match lib.scan dec.buf with
    | Scan.value n =>
      (unmarshal (dec.buf.take n),
        { dec with buf := dec.buf.drop n, consumed := dec.consumed + n })
    | Scan.syntaxError msg offset =>
      let err := DecodeError.SyntaxError msg (dec.consumed + offset)
      (some err, { dec with err := some err })
    | Scan.needMore endsAtEOF =>
      match dec.ending with
      | ReadEnd.EOF =>
        if endsAtEOF then
          (unmarshal dec.buf,
            { dec with buf := [], consumed := dec.consumed + dec.buf.length })
        else
          let err := if nonSpace dec.buf then DecodeError.ErrUnexpectedEOF else DecodeError.EOF
          (some err, { dec with err := some err })
      | ReadEnd.tooLarge =>
        let err := DecodeError.other "http: request body too large"
        (some err, { dec with err := some err })

def HasPrefix (s pre : String) : Bool := pre.data.isPrefixOf s.data

def TrimPrefix (s pre : String) : String :=
  if HasPrefix s pre then String.mk (s.data.drop pre.data.length) else s

/-- The byte limit `ReadJSON` applies. -/
def maxBytes (tools : Tools) : Int :=
  if tools.MaxJSONSize ≠ 0 then tools.MaxJSONSize else megabyte

/-- The `switch` of `ReadJSON` on the error of the first `Decode`. -/
def readError (lib : JSONLib) (maxBytes : Int) (err : DecodeError) : String :=
  match err with
  | DecodeError.SyntaxError _ Offset =>
    "body contains badly-formed JSON (at character " ++ toString Offset ++ ")"
  | DecodeError.ErrUnexpectedEOF => "body contains badly-formed JSON"
  | DecodeError.UnmarshalTypeError _ Field Offset =>
    if Field ≠ "" then "body contains incorrect JSON type for field " ++ lib.Quote Field
    else "body contains incorrect JSON type (at character " ++ toString Offset ++ ")"
  | DecodeError.EOF => "body must not be empty"
  | err =>
    if HasPrefix err.Error "json: unknown field" then
      "body contains unknown key " ++ TrimPrefix err.Error "json: unknown field"
    else if err.Error = "http: request body too large" then
      "body must not be larger than " ++ toString maxBytes ++ " bytes"
    else
      match err with
      | DecodeError.InvalidUnmarshalError _ => "error unmarshalling JSON: " ++ err.Error
      | _ => err.Error

/-- The decoder `ReadJSON` sets up over the size-limited body. -/
def jsonDecoder (tools : Tools) (body : List Nat) : Decoder :=
  let jsonDecoder := NewDecoder (MaxBytesReader body (maxBytes tools))
  if !tools.AllowUnknownFields then jsonDecoder.DisallowUnknownFields else jsonDecoder

/-- The first `Decode`, into `data`. -/
def firstDecode (tools : Tools) (lib : JSONLib) (body : List Nat) (data : Destination) :
    Option DecodeError × Decoder :=
  (jsonDecoder tools body).Decode lib (data (jsonDecoder tools body).disallowUnknown)

/-- The second `Decode`, into `&struct{}{}`, on the decoder the first left. -/
def secondDecode (lib : JSONLib) (dec : Decoder) : Option DecodeError × Decoder :=
  dec.Decode lib fun v =>
    (lib.unmarshalEmpty dec.disallowUnknown v).map (EmptyStructError.toDecodeError lib)

/-- `ReadJSON(responseWriter, request, data)` on a request with the given
body; the result is the error returned. -/
def ReadJSON (tools : Tools) (lib : JSONLib) (body : List Nat) (data : Destination) :
    Option String :=
  match firstDecode tools lib body data with
  | (some err, _) => some (readError lib (maxBytes tools) err)
  | (none, dec) =>
    match (secondDecode lib dec).1 with
    | some DecodeError.EOF => none
    | _ => some "body must contain only one JSON value"

/-! ### A scanner and a destination to run `ReadJSON` on concrete bodies -/

/-- Where the bracket scanner is in the value. -/
inductive ScanState
  | begin
  | nested (depth : Nat)
  | nestedString (depth : Nat) (escaped : Bool)
  | topString (escaped : Bool)
  | topStringEnd
  | scalar

def isScalarByte (c : Nat) : Bool :=
  (48 ≤ c && c ≤ 57) || (97 ≤ c && c ≤ 122) || (65 ≤ c && c ≤ 90) ||
    c == 43 || c == 45 || c == 46

/-- A scanner that finds the end of the first JSON value by matching
brackets and quotes: an object or array ends with its closing bracket, a
top-level string, number or literal with the byte after it. It rejects a
byte that cannot start a value and does not check the grammar inside. -/
def scanFrom : ScanState → Nat → List Nat → Scan
  | ScanState.begin, _, [] => Scan.needMore false
  | ScanState.nested _, _, [] => Scan.needMore false
  | ScanState.nestedString _ _, _, [] => Scan.needMore false
  | ScanState.topString _, _, [] => Scan.needMore false
  | ScanState.topStringEnd, _, [] => Scan.needMore true
  | ScanState.scalar, _, [] => Scan.needMore true
  | ScanState.begin, pos, c :: rest =>
    if isSpace c then scanFrom ScanState.begin (pos + 1) rest
    else if c == 123 || c == 91 then scanFrom (ScanState.nested 1) (pos + 1) rest
    else if c == 34 then scanFrom (ScanState.topString false) (pos + 1) rest
    else if isScalarByte c then scanFrom ScanState.scalar (pos + 1) rest
    else Scan.syntaxError "invalid character looking for beginning of value" (pos + 1)
  | ScanState.nested depth, pos, c :: rest =>
    if c == 34 then scanFrom (ScanState.nestedString depth false) (pos + 1) rest
    else if c == 123 || c == 91 then scanFrom (ScanState.nested (depth + 1)) (pos + 1) rest
    else if c == 125 || c == 93 then
      if depth ≤ 1 then Scan.value (pos + 1)
      else scanFrom (ScanState.nested (depth - 1)) (pos + 1) rest
    else scanFrom (ScanState.nested depth) (pos + 1) rest
  | ScanState.nestedString depth escaped, pos, c :: rest =>
    if escaped then scanFrom (ScanState.nestedString depth false) (pos + 1) rest
    else if c == 92 then scanFrom (ScanState.nestedString depth true) (pos + 1) rest
    else if c == 34 then scanFrom (ScanState.nested depth) (pos + 1) rest
    else scanFrom (ScanState.nestedString depth false) (pos + 1) rest
  | ScanState.topString escaped, pos, c :: rest =>
    if escaped then scanFrom (ScanState.topString false) (pos + 1) rest
    else if c == 92 then scanFrom (ScanState.topString true) (pos + 1) rest
    else if c == 34 then scanFrom ScanState.topStringEnd (pos + 1) rest
    else scanFrom (ScanState.topString false) (pos + 1) rest
  | ScanState.topStringEnd, pos, _ :: _ => Scan.value pos
  | ScanState.scalar, pos, c :: rest =>
    if isScalarByte c then scanFrom ScanState.scalar (pos + 1) rest else Scan.value pos

/-- A library whose scanner matches brackets, whose empty struct takes any
value, and whose `%q` puts the text between double quotes. -/
def testLib : JSONLib :=
  { scan := scanFrom ScanState.begin 0
    unmarshalEmpty := fun _ _ => none
    Quote := fun s => "\"" ++ s ++ "\"" }

/-- A destination that takes every JSON value, as a `*interface{}` does. -/
def anyValue : Destination := fun _ _ => none

/-! ## JSON: writing a response -/

/-- A header map (`http.Header`): entries of key and values, an earlier
entry standing for the map's value under its key. -/
abbrev Header := List (String × List String)

/-- The map lookup `h[key]`, `none` when the key is absent. -/
def Header.get (h : Header) (key : String) : Option (List String) := h.lookup key

/-- The map assignment `h[key] = value`. -/
def Header.assign (h : Header) (key : String) (value : List String) : Header :=
  (key, value) :: h

/-- The bytes `textproto` allows in a header field name. -/
def validHeaderFieldByte (c : Char) : Bool :=
  c.isAlphanum || [33, 35, 36, 37, 38, 39, 42, 43, 45, 46, 94, 95, 96, 124, 126].contains c.toNat

def canonicalAux : Bool → List Char → List Char
  | _, [] => []
  | upper, c :: rest =>
    (if upper then c.toUpper else c.toLower) :: canonicalAux (c == '-') rest

/-- Model of `textproto.CanonicalMIMEHeaderKey`: first letter and letters
after a hyphen in upper case, the other letters in lower case; a key with a
byte that is not allowed is left as it is. -/
def CanonicalMIMEHeaderKey (s : String) : String :=
  if s.data.all validHeaderFieldByte then String.mk (canonicalAux true s.data) else s

/-- The method `h.Set(key, value)`. -/
def Header.Set (h : Header) (key value : String) : Header :=
  h.assign (CanonicalMIMEHeaderKey key) [value]

/-- The response as a handler sees it through `http.ResponseWriter`, with
the fields named as in `httptest.ResponseRecorder`: the header map, whether
the status line is out, the status code and the headers sent with it, the
body written, and the error the connection reports to `Write`. -/
structure ResponseWriter where
  HeaderMap : Header
  wroteHeader : Bool
  Code : Int
  snapHeader : Header
  Body : List Nat
  writeErr : Option String
  deriving DecidableEq, Repr

/-- A response nothing has been written to. -/
def NewRecorder : ResponseWriter :=
  { HeaderMap := [], wroteHeader := false, Code := 200, snapHeader := [], Body := []
    writeErr := none }

/-- `w.WriteHeader(code)`: nothing happens when the status line is out; a
code outside 100..999 panics (`none`); else the code and the headers are
fixed. -/
def ResponseWriter.WriteHeader (w : ResponseWriter) (code : Int) : Option ResponseWriter :=
  if w.wroteHeader then some w
  else if code < 100 ∨ code > 999 then none
  else some { w with wroteHeader := true, Code := code, snapHeader := w.HeaderMap }

/-- The function `bodyAllowedForStatus` of `net/http`: a response with an
informational status, 204 or 304 carries no body. -/
def bodyAllowedForStatus (status : Int) : Bool :=
  if 100 ≤ status ∧ status ≤ 199 then false
  else if status = 204 then false
  else if status = 304 then false
  else true

/-- The text of `http.ErrBodyNotAllowed`. -/
def ErrBodyNotAllowed : String :=
  "http: request method or response status code does not allow body"

/-- `w.Write(data)` as the server's response writer does it: sends the
status line with code 200 when it is not out yet; writing no bytes is then
done; a status that allows no body gives `http.ErrBodyNotAllowed` and
writes nothing; else `data` is appended to the body unless the connection
fails. -/
def ResponseWriter.Write (w : ResponseWriter) (data : List Nat) :
    Option String × ResponseWriter :=
  let w := if w.wroteHeader then w
    else { w with wroteHeader := true, Code := 200, snapHeader := w.HeaderMap }
  if data.length = 0 then (none, w)
  else if bodyAllowedForStatus w.Code = false then (some ErrBodyNotAllowed, w)
  else
    match w.writeErr with
    | some err => (some err, w)
    | none => (none, { w with Body := w.Body ++ data })

/-- Result of a call that writes a response: the error returned and the
response afterwards, or a run-time panic. -/
inductive WriteResult
  | returned (err : Option String) (w : ResponseWriter)
  | panicked (msg : String)
  deriving DecidableEq, Repr

/-- The `range` loop `responseWriter.Header()[key] = value` over the
caller's header map. -/
def mergeHeaders (w : ResponseWriter) (header : Header) : ResponseWriter :=
  header.foldl (fun w entry => { w with HeaderMap := w.HeaderMap.assign entry.1 entry.2 }) w

/-- `WriteJSON(responseWriter, status, data, headers...)`, with `Marshal`
standing for `json.Marshal` on the type of `data`. -/
def WriteJSON {α : Type} (Marshal : α → Except String (List Nat))
    (responseWriter : ResponseWriter) (status : Int) (data : α) (headers : List Header) :
    WriteResult :=
  match Marshal data with
  | Except.error err => WriteResult.returned (some err) responseWriter
  | Except.ok output =>
    let responseWriter := match headers with
      | [] => responseWriter
      | header :: _ => mergeHeaders responseWriter header
    let responseWriter :=
      { responseWriter with
        HeaderMap := responseWriter.HeaderMap.Set "Content-Type" "application/json" }
    match responseWriter.WriteHeader status with
    | none => WriteResult.panicked ("invalid WriteHeader code " ++ toString status)
    | some responseWriter =>
      match responseWriter.Write output with
      | (some err, responseWriter) => WriteResult.returned (some err) responseWriter
      | (none, responseWriter) => WriteResult.returned none responseWriter

/-! ## JSON: the response envelope and its encoding

Go strings are byte sequences; the text of an error reaches the encoder as
such, so the envelope's message is a `List Nat` of bytes here. -/

/-- Type used for sending JSON: `error`, `message` and the optional `data`
(`nil`, or a value given by its JSON text). -/
structure JSONResponse where
  Error : Bool
  Message : List Nat
  Data : Option (List Nat)
  deriving DecidableEq, Repr

/-- The replacement character U+FFFD, `utf8.RuneError`. -/
def RuneError : Nat := 0xFFFD

/-- Model of `utf8.DecodeRune`: the rune at the front of the bytes and its
width; `(RuneError, 1)` for a byte sequence that is not valid UTF-8 and
`(RuneError, 0)` for no bytes. -/
def DecodeRune : List Nat → Nat × Nat
  | [] => (RuneError, 0)
  | b0 :: rest =>
    if b0 < 0x80 then (b0, 1)
    else if 0xC2 ≤ b0 ∧ b0 ≤ 0xDF then
      match rest with
      | b1 :: _ =>
        if 0x80 ≤ b1 ∧ b1 ≤ 0xBF then ((b0 - 0xC0) * 64 + (b1 - 0x80), 2) else (RuneError, 1)
      | _ => (RuneError, 1)
    else if 0xE0 ≤ b0 ∧ b0 ≤ 0xEF then
      match rest with
      | b1 :: b2 :: _ =>
        if (if b0 = 0xE0 then 0xA0 else 0x80) ≤ b1 ∧ b1 ≤ (if b0 = 0xED then 0x9F else 0xBF) ∧
            0x80 ≤ b2 ∧ b2 ≤ 0xBF then
          ((b0 - 0xE0) * 4096 + (b1 - 0x80) * 64 + (b2 - 0x80), 3)
        else (RuneError, 1)
      | _ => (RuneError, 1)
    else if 0xF0 ≤ b0 ∧ b0 ≤ 0xF4 then
      match rest with
      | b1 :: b2 :: b3 :: _ =>
        if (if b0 = 0xF0 then 0x90 else 0x80) ≤ b1 ∧ b1 ≤ (if b0 = 0xF4 then 0x8F else 0xBF) ∧
            0x80 ≤ b2 ∧ b2 ≤ 0xBF ∧ 0x80 ≤ b3 ∧ b3 ≤ 0xBF then
          ((b0 - 0xF0) * 262144 + (b1 - 0x80) * 4096 + (b2 - 0x80) * 64 + (b3 - 0x80), 4)
        else (RuneError, 1)
      | _ => (RuneError, 1)
    else (RuneError, 1)

/-- Model of `utf8.EncodeRune`: the UTF-8 bytes of a rune; a surrogate or a
value beyond U+10FFFF is written as U+FFFD. -/
def EncodeRune (r : Nat) : List Nat :=
  if r < 0x80 then [r]
  else if r < 0x800 then [0xC0 + r / 64, 0x80 + r % 64]
  else if 0x10FFFF < r ∨ (0xD800 ≤ r ∧ r ≤ 0xDFFF) then [0xEF, 0xBF, 0xBD]
  else if r < 0x10000 then [0xE0 + r / 4096, 0x80 + r / 64 % 64, 0x80 + r % 64]
  else [0xF0 + r / 262144, 0x80 + r / 4096 % 64, 0x80 + r / 64 % 64, 0x80 + r % 64]

/-- The digit `hex[n]` of `"0123456789abcdef"`. -/
def hexDigit (n : Nat) : Nat := if n < 10 then 48 + n else 87 + n

/-- The ASCII bytes the encoder copies as they are (`htmlSafeSet`). -/
def htmlSafe (b : Nat) : Bool :=
  0x20 ≤ b && b != 0x22 && b != 0x26 && b != 0x3C && b != 0x3E && b != 0x5C

/-- How the encoder writes an ASCII byte that is not in `htmlSafeSet`. -/
def escapeByte (b : Nat) : List Nat :=
  if b = 0x5C ∨ b = 0x22 then [0x5C, b]
  else if b = 8 then [0x5C, 98]
  else if b = 12 then [0x5C, 102]
  else if b = 10 then [0x5C, 110]
  else if b = 13 then [0x5C, 114]
  else if b = 9 then [0x5C, 116]
  else [0x5C, 117, 48, 48, hexDigit (b / 16), hexDigit (b % 16)]

/-- The loop of the encoder's `appendString` (HTML escaping on) over the
bytes of the string; `skip` counts bytes of a rune already dealt with. -/
def appendStringLoop : Nat → List Nat → List Nat
  | _, [] => []
  | skip + 1, _ :: rest => appendStringLoop skip rest
  | 0, b :: rest =>
    if b < 0x80 then
      (if htmlSafe b then [b] else escapeByte b) ++ appendStringLoop 0 rest
    else
      match DecodeRune (b :: rest) with
      | (c, size) =>
        if c = RuneError ∧ size = 1 then
          [0x5C, 117, 102, 102, 102, 100] ++ appendStringLoop 0 rest
        else if c = 0x2028 ∨ c = 0x2029 then
          [0x5C, 117, 50, 48, 50, hexDigit (c % 16)] ++ appendStringLoop (size - 1) rest
        else (b :: rest).take size ++ appendStringLoop (size - 1) rest

/-- A Go string as a JSON string literal. -/
def appendString (src : List Nat) : List Nat := 0x22 :: appendStringLoop 0 src ++ [0x22]

/-- Model of `json.Marshal` on a `JSONResponse`: the fields in order under
their tag names, `data` left out when it is nil. -/
def marshalJSONResponse (p : JSONResponse) : Except String (List Nat) :=
  Except.ok (bytes "\x7b\"error\":" ++ (if p.Error then bytes "true" else bytes "false") ++
    bytes ",\"message\":" ++ appendString p.Message ++
    (match p.Data with
      | none => []
      | some d => bytes ",\"data\":" ++ d) ++ bytes "\x7d")

/-- The target of the call (`url.URL`). -/
structure URL where
  Scheme : String
  Host : String
  Path : String
  deriving DecidableEq, Repr

/-- The request `http.NewRequest` builds. -/
structure RemoteRequest where
  Method : String
  URL : String
  Header : Header
  Body : List Nat
  deriving DecidableEq, Repr

/-- The response a client hands back; `bodyClosed` tells whether
`Body.Close()` has been called on it. -/
structure Response where
  StatusCode : Int
  Header : Header
  Body : List Nat
  bodyClosed : Bool
  deriving DecidableEq, Repr

/-- An HTTP client: what `Do` answers to a request. -/
abbrev Client := RemoteRequest → Except String Response

/-- The platform of the call: the text `uri.String()`, the error
`http.NewRequest` reports for a URL it cannot parse, and the client
`&http.Client{}`. -/
structure Net where
  URLString : URL → String
  urlErr : String → Option String
  defaultClient : Client

/-- Model of `http.NewRequest`. -/
def NewRequest (net : Net) (method url : String) (body : List Nat) :
    Except String RemoteRequest :=
  match net.urlErr url with
  | some err => Except.error err
  | none => Except.ok { Method := method, URL := url, Header := [], Body := body }

/-- The three return values of `PostJSONToRemote` and the requests it
handed to the client. -/
structure PostResult where
  response : Option Response
  status : Int
  err : Option String
  sent : List RemoteRequest
  deriving DecidableEq, Repr

/-- `PostJSONToRemote(uri, data, client...)`, with `Marshal` standing for
`json.Marshal` on the type of `data`. The deferred `response.Body.Close()`
runs when the function returns, on the response it returns. -/
def PostJSONToRemote {α : Type} (Marshal : α → Except String (List Nat)) (net : Net)
    (uri : URL) (data : α) (client : List Client) : PostResult :=
  match Marshal data with
  | Except.error err => { response := none, status := 0, err := some err, sent := [] }
  | Except.ok jsonData =>
    let httpClient := match client with
      | [] => net.defaultClient
      | c :: _ => c
    match NewRequest net "POST" (net.URLString uri) jsonData with
    | Except.error err => { response := none, status := 0, err := some err, sent := [] }
    | Except.ok request =>
      let request := { request with Header := request.Header.Set "Content-Type" "application/json" }
      match httpClient request with
      | Except.error err =>
        { response := none, status := 0, err := some err, sent := [request] }
      | Except.ok response =>
        { response := some { response with bodyClosed := true }
          status := response.StatusCode, err := none, sent := [request] }

/-- The value the test posts: a struct with the one field `bar`. -/
structure Foo where
  Bar : List Nat

def marshalFoo (foo : Foo) : Except String (List Nat) :=
  Except.ok (bytes "\x7b\"bar\":" ++ appendString foo.Bar ++ bytes "\x7d")

/-- The test's client: status 200 and the body `ok`, not closed. -/
def testClient : Client := fun _ =>
  Except.ok { StatusCode := 200, Header := [], Body := bytes "ok", bodyClosed := false }

/-- A platform that writes a URL as scheme, host and path, parses every
URL, and whose default client cannot reach anything. -/
def testNet : Net :=
  { URLString := fun u => u.Scheme ++ "://" ++ u.Host ++ "/" ++ u.Path
    urlErr := fun _ => none
    defaultClient := fun _ => Except.error "no route to host" }

def remoteURI : URL := { Scheme := "http", Host := "example.com", Path := "some/path" }

/-! ## Valid UTF-8 and what the encoder writes for it -/

/-- The characters listed in the bracket expression of the pattern
`[^[a-z\d]+`, before its negation: an opening bracket, the letters `a` to
`z` and the digits. -/
def inBracketExpression (c : Char) : Bool :=
  c == '[' || (97 ≤ c.toNat && c.toNat ≤ 122) || (48 ≤ c.toNat && c.toNat ≤ 57)

/-- Replacement of every maximal run of characters that `hit` takes by one
hyphen, as `ReplaceAllString(s, "-")` does for a pattern `[...]+`; `inRun`
tells whether the character before was taken. -/
def replaceRuns (hit : Char → Bool) : Bool → List Char → List Char
  | _, [] => []
  | inRun, c :: rest =>
    if hit c then
      if inRun then replaceRuns hit true rest else '-' :: replaceRuns hit true rest
    else c :: replaceRuns hit false rest

/-- `regEx.ReplaceAllString(s, "-")` for `regEx = [^[a-z\d]+`. -/
def ReplaceAllString (s : List Char) : List Char :=
  replaceRuns (fun c => !inBracketExpression c) false s

/-- Model of `strings.Trim(s, cutset)` for a cutset of one character. -/
def Trim (s : List Char) (cut : Char) : List Char :=
  ((s.dropWhile fun c => c == cut).reverse.dropWhile fun c => c == cut).reverse

/-- `CreateSlug(str)`: the slug and the error. `lower` stands for
`unicode.ToLower`, which `strings.ToLower` applies to every character. -/
def CreateSlug (lower : Char → Char) (str : String) : String × Option String :=
  let slug := ""
  if str = "" then (slug, some "empty string not permitted")
  else
    let slug := String.mk (Trim (ReplaceAllString (str.data.map lower)) '-')
    if slug.length = 0 then ("", some "after removing characters, slug is zero length")
    else (slug, none)

/-- The reference the specification gives for `CreateSlug`, in its words:
fail on the empty string; else lower-case, replace every maximal run of
characters other than the letters `a`-`z` and the digits `0`-`9` by one
hyphen, strip leading and trailing hyphens; fail when nothing remains. -/
def slugReference (lower : Char → Char) (s : String) : String × Option String :=
  if s = "" then ("", some "empty string not permitted")
  else
    let kept := fun c : Char =>
      (97 ≤ c.toNat && c.toNat ≤ 122) || (48 ≤ c.toNat && c.toNat ≤ 57)
    let r := Trim (replaceRuns (fun c => !kept c) false (s.data.map lower)) '-'
    if r = [] then ("", some "after removing characters, slug is zero length")
    else (String.mk r, none)

/-! # Properties -/

/-! ## Uploads: how one part and the loop behave -/

theorem uploadPart_normal (tools : Tools) (env : Env) (dir : String) (rf : Bool) (k : Nat)
    (header : FileHeader) (files : List UploadedFile) (log : List Event) :
    uploadPart tools env dir rf k header files log =
      match header.openErr with
      | some err => ([], some err, log)
      | none =>
        match header.readErr with
        | some err => ([], some err, log)
        | none =>
          if header.content = [] then ([], some "EOF", log)
          else if typeAllowed tools env (fillBuffer (header.content.take 512)) = false then
            ([], some "uploaded file type is not permitted", log)
          else
            match header.seekErr with
            | some err => ([], some err, log)
            | none =>
              match env.Create (env.Join dir (newFileName env rf k header)) with
              | some err => ([], some err, log)
              | none =>
                match env.copyErr (env.Join dir (newFileName env rf k header)) with
                | some err =>
                  ([], some err, log ++ [Event.create (env.Join dir (newFileName env rf k header))]
                    ++ [Event.copyFailed (env.Join dir (newFileName env rf k header))])
                | none =>
                  (files ++ [descriptorOf env rf k header], none,
                    log ++ [Event.create (env.Join dir (newFileName env rf k header))]
                      ++ [Event.copied (env.Join dir (newFileName env rf k header))
                            header.content]) := by
  unfold uploadPart File.Read File.Seek0 descriptorOf
  cases header.openErr with
  | some e => rfl
  | none =>
    cases header.readErr with
    | some e => rfl
    | none =>
      by_cases hc : header.content = []
      · simp [hc]
      · have hlen : ¬ (List.take 512 header.content).length = 0 := by
          cases hcc : header.content with
          | nil => exact absurd hcc hc
          | cons a l => simp
        simp only [List.drop_zero, hlen, if_false, hc]
        by_cases ha : typeAllowed tools env (fillBuffer (List.take 512 header.content)) = false
        · simp [ha]
        · simp only [ha, if_false]
          have ha' : typeAllowed tools env (fillBuffer (List.take 512 header.content)) = true := by
            simpa using ha
          simp only [ha', Bool.not_true, Bool.false_eq_true, if_false]
          cases header.seekErr with
          | some e => rfl
          | none =>
            simp only [List.drop_zero]
            cases env.Create (env.Join dir (newFileName env rf k header)) with
            | some e => rfl
            | none =>
              cases env.copyErr (env.Join dir (newFileName env rf k header)) with
              | some e => rfl
              | none => rfl

theorem typeAllowed_congr (t1 t2 : Tools) (env : Env) (buf : List Nat)
    (h : t1.AllowedFileTypes = t2.AllowedFileTypes) :
    typeAllowed t1 env buf = typeAllowed t2 env buf := by
  unfold typeAllowed
  rw [h]

theorem uploadPart_congr (t1 t2 : Tools) (env : Env) (dir : String) (rf : Bool) (k : Nat)
    (header : FileHeader) (files : List UploadedFile) (log : List Event)
    (h : t1.AllowedFileTypes = t2.AllowedFileTypes) :
    uploadPart t1 env dir rf k header files log = uploadPart t2 env dir rf k header files log := by
  rw [uploadPart_normal, uploadPart_normal, typeAllowed_congr t1 t2 env _ h]

theorem uploadLoop_congr (t1 t2 : Tools) (env : Env) (dir : String) (rf : Bool)
    (h : t1.AllowedFileTypes = t2.AllowedFileTypes) (parts : List FileHeader) :
    ∀ (k : Nat) (files : List UploadedFile) (log : List Event),
      uploadLoop t1 env dir rf k parts files log = uploadLoop t2 env dir rf k parts files log := by
  induction parts with
  | nil => intro k files log; rfl
  | cons a rest ih =>
    intro k files log
    simp only [uploadLoop, uploadPart_congr t1 t2 env dir rf k a files log h]
    split
    · rfl
    · exact ih _ _ _

/-- A part either fails, handing back no descriptor, or appends its descriptor. -/
theorem uploadPart_cases (tools : Tools) (env : Env) (dir : String) (rf : Bool) (k : Nat)
    (header : FileHeader) (files : List UploadedFile) (log : List Event) :
    (∃ e log1, uploadPart tools env dir rf k header files log = ([], some e, log1) ∧
        partError tools env dir rf k header = some e) ∨
      (uploadPart tools env dir rf k header files log =
          (files ++ [descriptorOf env rf k header], none,
            log ++ [Event.create (env.Join dir (newFileName env rf k header))]
              ++ [Event.copied (env.Join dir (newFileName env rf k header)) header.content]) ∧
        partError tools env dir rf k header = none ∧
        env.copyErr (env.Join dir (newFileName env rf k header)) = none) := by
  unfold partError
  rw [uploadPart_normal, uploadPart_normal]
  cases header.openErr with
  | some e => exact Or.inl ⟨e, log, rfl, rfl⟩
  | none =>
    cases header.readErr with
    | some e => exact Or.inl ⟨e, log, rfl, rfl⟩
    | none =>
      by_cases hc : header.content = []
      · simp [hc]
      · by_cases ha : typeAllowed tools env (fillBuffer (List.take 512 header.content)) = false
        · simp [hc, ha]
        · cases header.seekErr with
          | some e => simp [hc, ha]
          | none =>
            cases hcr : env.Create (env.Join dir (newFileName env rf k header)) with
            | some e => simp [hc, ha]
            | none =>
              cases hcp : env.copyErr (env.Join dir (newFileName env rf k header)) with
              | some e => simp [hc, ha]
              | none => simp [hc, ha]

theorem uploadLoop_spec (tools : Tools) (env : Env) (dir : String) (rf : Bool)
    (parts : List FileHeader) :
    ∀ (k : Nat) (files : List UploadedFile) (log : List Event),
      (uploadLoop tools env dir rf k parts files log).2.1 = loopError tools env dir rf k parts ∧
      (∀ e, loopError tools env dir rf k parts = some e →
        (uploadLoop tools env dir rf k parts files log).1 = []) ∧
      (loopError tools env dir rf k parts = none →
        (uploadLoop tools env dir rf k parts files log).1
          = files ++ descriptorsFrom env rf k parts) := by
  induction parts with
  | nil => intro k files log; simp [uploadLoop, loopError, descriptorsFrom]
  | cons a rest ih =>
    intro k files log
    rcases uploadPart_cases tools env dir rf k a files log with ⟨e, log1, h1, h2⟩ | ⟨h1, h2, _⟩
    · simp [uploadLoop, loopError, h1, h2]
    · simp only [uploadLoop, loopError, h1, h2]
      have := ih (k + 1) (files ++ [descriptorOf env rf k a])
        (log ++ [Event.create (env.Join dir (newFileName env rf k a))]
              ++ [Event.copied (env.Join dir (newFileName env rf k a)) a.content])
      refine ⟨this.1, this.2.1, fun h => ?_⟩
      rw [this.2.2 h]
      simp [descriptorsFrom]

theorem loopError_append (tools : Tools) (env : Env) (dir : String) (rf : Bool)
    (pre rest : List FileHeader) :
    ∀ k : Nat, loopError tools env dir rf k (pre ++ rest) =
      match loopError tools env dir rf k pre with
      | some e => some e
      | none => loopError tools env dir rf (k + pre.length) rest := by
  induction pre with
  | nil => intro k; simp [loopError]
  | cons a l ih =>
    intro k
    simp only [List.cons_append, loopError]
    cases partError tools env dir rf k a with
    | some e => rfl
    | none =>
      have h := ih (k + 1)
      have e : k + 1 + l.length = k + (l.length + 1) := by omega
      rw [e] at h
      simpa using h

theorem createRandomStringSource_length : createRandomStringSource.data.length = 67 := by
  decide

theorem RandomString_length (n : Nat) (prime : Nat → Nat) :
    (RandomString n prime).length = n := by
  unfold RandomString
  simp only [String.length, List.length_map, List.length_range]

theorem RandomString_mem (n : Nat) (prime : Nat → Nat) :
    ∀ c ∈ (RandomString n prime).data, c ∈ createRandomStringSource.data := by
  intro c hc
  simp only [RandomString, List.mem_map] at hc
  obtain ⟨idx, _, rfl⟩ := hc
  have hlt : prime idx % 2 ^ 64 % (createRandomStringSource.data.length % 2 ^ 64)
      < createRandomStringSource.data.length := by
    rw [createRandomStringSource_length]
    have h67 : (67 % 2 ^ 64 : Nat) = 67 := by norm_num
    rw [h67]
    exact Nat.mod_lt _ (by norm_num)
  rw [List.getD_eq_getElem _ _ hlt]
  exact List.getElem_mem _

theorem descriptorsFrom_length (env : Env) (rf : Bool) (parts : List FileHeader) :
    ∀ k : Nat, (descriptorsFrom env rf k parts).length = parts.length := by
  induction parts with
  | nil => intro k; rfl
  | cons a l ih => intro k; simp [descriptorsFrom, ih]

theorem descriptorsFrom_getElem? (env : Env) (rf : Bool) (parts : List FileHeader) :
    ∀ (k i : Nat) (header : FileHeader), parts[i]? = some header →
      (descriptorsFrom env rf k parts)[i]? = some (descriptorOf env rf (k + i) header) := by
  induction parts with
  | nil => intro k i header h; simp at h
  | cons a l ih =>
    intro k i header h
    cases i with
    | zero =>
      simp only [List.getElem?_cons_zero, Option.some.injEq] at h
      simp [descriptorsFrom, h]
    | succ j =>
      simp only [List.getElem?_cons_succ] at h
      have := ih (k + 1) j header h
      simp only [descriptorsFrom, List.getElem?_cons_succ, this]
      congr 2
      omega

theorem UploadFiles_normal (tools : Tools) (env : Env) (request : Request) (dir : String)
    (rename : List Bool) :
    (UploadFiles tools env request dir rename).err =
        (match setupError tools env request dir with
          | some e => some e
          | none => loopError tools env dir (rename.headD true) 0 request.parts) ∧
      (UploadFiles tools env request dir rename).files =
        (match setupError tools env request dir with
          | some _ => []
          | none =>
            (uploadLoop tools env dir (rename.headD true) 0 request.parts []
              (setupLog env dir)).1) ∧
      (UploadFiles tools env request dir rename).log =
        (match setupError tools env request dir with
          | some _ => setupLog env dir
          | none =>
            (uploadLoop tools env dir (rename.headD true) 0 request.parts []
              (setupLog env dir)).2.2) := by
  have hrf : (match rename with
      | [] => true
      | r :: _ => r) = rename.headD true := by
    cases rename <;> rfl
  unfold UploadFiles setupError setupLog
  rw [hrf]
  generalize rename.headD true = rf
  rcases hcd : CreateDirectoryIfNotExist env dir [] with ⟨e1, log⟩
  cases e1 with
  | some e => simp
  | none =>
    have hms : (if tools.MaxFileSize = 0 then { tools with MaxFileSize := gigabyte }
        else tools).MaxFileSize = (if tools.MaxFileSize = 0 then gigabyte else tools.MaxFileSize) := by
      split <;> rfl
    have hal : (if tools.MaxFileSize = 0 then { tools with MaxFileSize := gigabyte }
        else tools).AllowedFileTypes = tools.AllowedFileTypes := by
      split <;> rfl
    simp only [hms]
    cases request.ParseMultipartForm (if tools.MaxFileSize = 0 then gigabyte else tools.MaxFileSize) with
    | some e => simp
    | none =>
      simp only [uploadLoop_congr _ tools env dir rf hal]
      have h := (uploadLoop_spec tools env dir rf request.parts 0 [] log).1
      simp [h]

theorem uploadPart_log_mono (tools : Tools) (env : Env) (dir : String) (rf : Bool) (k : Nat)
    (header : FileHeader) (files : List UploadedFile) (log : List Event) :
    ∀ ev ∈ log, ev ∈ (uploadPart tools env dir rf k header files log).2.2 := by
  intro ev hev
  rw [uploadPart_normal]
  cases header.openErr with
  | some e => exact hev
  | none =>
    cases header.readErr with
    | some e => exact hev
    | none =>
      by_cases hc : header.content = []
      · simpa [hc] using hev
      · by_cases ha : typeAllowed tools env (fillBuffer (List.take 512 header.content)) = false
        · simpa [hc, ha] using hev
        · cases header.seekErr with
          | some e => simpa [hc, ha] using hev
          | none =>
            cases hcr : env.Create (env.Join dir (newFileName env rf k header)) with
            | some e => simpa [hc, ha] using hev
            | none =>
              cases hcp : env.copyErr (env.Join dir (newFileName env rf k header)) with
              | some e => simp [hc, ha, hev]
              | none => simp [hc, ha, hev]

theorem uploadLoop_log (tools : Tools) (env : Env) (dir : String) (rf : Bool)
    (parts : List FileHeader) :
    ∀ (k : Nat) (files : List UploadedFile) (log : List Event),
      (∀ ev ∈ log, ev ∈ (uploadLoop tools env dir rf k parts files log).2.2) ∧
      (loopError tools env dir rf k parts = none →
        ∀ (i : Nat) (header : FileHeader), parts[i]? = some header →
          Event.copied (env.Join dir (newFileName env rf (k + i) header)) header.content
              ∈ (uploadLoop tools env dir rf k parts files log).2.2 ∧
            env.copyErr (env.Join dir (newFileName env rf (k + i) header)) = none) := by
  induction parts with
  | nil =>
    intro k files log
    refine ⟨fun ev h => by simpa [uploadLoop] using h, fun _ i header h => by simp at h⟩
  | cons a rest ih =>
    intro k files log
    have hmono := uploadPart_log_mono tools env dir rf k a files log
    rcases uploadPart_cases tools env dir rf k a files log with ⟨e, log1, h1, h2⟩ | ⟨h1, h2, h3⟩
    · rw [h1] at hmono
      refine ⟨fun ev h => by simpa [uploadLoop, h1] using hmono ev h, fun hn => ?_⟩
      simp [loopError, h2] at hn
    · have hrec := ih (k + 1) (files ++ [descriptorOf env rf k a])
        (log ++ [Event.create (env.Join dir (newFileName env rf k a))]
              ++ [Event.copied (env.Join dir (newFileName env rf k a)) a.content])
      have hstep : uploadLoop tools env dir rf k (a :: rest) files log =
          uploadLoop tools env dir rf (k + 1) rest (files ++ [descriptorOf env rf k a])
            (log ++ [Event.create (env.Join dir (newFileName env rf k a))]
              ++ [Event.copied (env.Join dir (newFileName env rf k a)) a.content]) := by
        simp only [uploadLoop, h1]
      rw [hstep]
      refine ⟨fun ev h => hrec.1 ev (by simp [h]), fun hn i header hi => ?_⟩
      have hn' : loopError tools env dir rf (k + 1) rest = none := by
        simpa [loopError, h2] using hn
      cases i with
      | zero =>
        simp only [List.getElem?_cons_zero, Option.some.injEq] at hi
        subst hi
        exact ⟨hrec.1 _ (by simp), h3⟩
      | succ j =>
        simp only [List.getElem?_cons_succ] at hi
        have := hrec.2 hn' j header hi
        have e : k + 1 + j = k + (j + 1) := by omega
        rw [e] at this
        exact this

theorem Request.withParts_parts (request : Request) (parts : List FileHeader) :
    (request.withParts parts).parts = parts := by
  simp [Request.withParts, Request.parts]

theorem setupError_withParts (tools : Tools) (env : Env) (request : Request) (dir : String)
    (parts : List FileHeader) :
    setupError tools env (request.withParts parts) dir = setupError tools env request dir := rfl

/-- The buffer handed to the detection for a part that is not empty: its
first 512 bytes, followed by zero bytes up to 512 when the part is shorter. -/
theorem fillBuffer_take (content : List Nat) :
    fillBuffer (content.take 512)
      = content.take 512 ++ List.replicate (512 - min 512 content.length) 0 := by
  unfold fillBuffer
  rw [List.drop_replicate, List.length_take]

theorem allowedLoop_eq_true_iff (ef : String → String → Bool) (ft : String)
    (l : List String) (b : Bool) :
    allowedLoop ef ft l b = true ↔ b = true ∨ ∃ t ∈ l, ef ft t = true := by
  induction l generalizing b with
  | nil => simp [allowedLoop]
  | cons a rest ih =>
    rw [allowedLoop, ih]
    by_cases h : ef ft a = true
    · simp [h]
    · simp [h]

theorem typeAllowed_iff (tools : Tools) (env : Env) (buf : List Nat) :
    typeAllowed tools env buf = true ↔
      tools.AllowedFileTypes = [] ∨
        ∃ t ∈ tools.AllowedFileTypes, env.EqualFold (env.DetectContentType buf) t = true := by
  unfold typeAllowed
  cases hl : tools.AllowedFileTypes with
  | nil => simp
  | cons a rest =>
    simp only [List.length_cons, gt_iff_lt, Nat.zero_lt_succ, if_true, allowedLoop_eq_true_iff]
    simp

/-! ## Uploads: the claims -/

/-- The allow-list check of `UploadFiles` at a part whose first read returns
bytes, the parts before it being stored. When the allow-list is empty or
one of its entries equals the detected content type ignoring case, the part
is not refused: if the seek, the creation of the file and the copy succeed,
the call on the parts up to this one returns no error and one descriptor
per part. When the allow-list is not empty and none of its entries equals
the detected type, the call fails with "uploaded file type is not
permitted" and returns no descriptor. -/
theorem UploadFiles_type_check_after_read (tools : Tools) (env : Env) (request : Request)
    (dir : String) (rename : List Bool) (pre post : List FileHeader) (header : FileHeader)
    (hparts : request.parts = pre ++ header :: post)
    (hpre : (UploadFiles tools env (request.withParts pre) dir rename).err = none)
    (hopen : header.openErr = none) (hread : header.readErr = none)
    (hne : header.content ≠ []) :
    ((tools.AllowedFileTypes = [] ∨
          ∃ t ∈ tools.AllowedFileTypes,
            env.EqualFold (env.DetectContentType (fillBuffer (header.content.take 512))) t
              = true) →
        header.seekErr = none →
        env.Create (env.Join dir (newFileName env (rename.headD true) pre.length header))
          = none →
        env.copyErr (env.Join dir (newFileName env (rename.headD true) pre.length header))
          = none →
        (UploadFiles tools env (request.withParts (pre ++ [header])) dir rename).err = none ∧
          (UploadFiles tools env (request.withParts (pre ++ [header])) dir rename).files.length
            = pre.length + 1) ∧
      (¬ (tools.AllowedFileTypes = [] ∨
          ∃ t ∈ tools.AllowedFileTypes,
            env.EqualFold (env.DetectContentType (fillBuffer (header.content.take 512))) t
              = true) →
        (UploadFiles tools env request dir rename).err
            = some "uploaded file type is not permitted" ∧
          (UploadFiles tools env request dir rename).files = []) := by
  have hP := UploadFiles_normal tools env (request.withParts pre) dir rename
  have hR := UploadFiles_normal tools env request dir rename
  have hQ := UploadFiles_normal tools env (request.withParts (pre ++ [header])) dir rename
  rw [setupError_withParts, Request.withParts_parts] at hP hQ
  rw [hP.1] at hpre
  cases hs : setupError tools env request dir with
  | some e => simp [hs] at hpre
  | none =>
    simp only [hs] at hpre hR hQ
    refine ⟨fun hacc hseek hcreate hcopy => ?_, fun hrej => ?_⟩
    · have hta := (typeAllowed_iff tools env (fillBuffer (header.content.take 512))).mpr hacc
      generalize rename.headD true = rf at hpre hQ hcreate hcopy
      have hpart : partError tools env dir rf (0 + pre.length) header
          = none := by
        unfold partError
        rw [uploadPart_normal]
        rw [Nat.zero_add]
        simp [hopen, hread, hne, hta, hseek, hcreate, hcopy]
      have hloop : loopError tools env dir rf 0 (pre ++ [header]) = none := by
        rw [loopError_append, hpre]
        simp only [loopError, hpart]
      refine ⟨by rw [hQ.1, hloop], ?_⟩
      rw [hQ.2.1, (uploadLoop_spec tools env dir rf (pre ++ [header]) 0 []
        (setupLog env dir)).2.2 hloop]
      simp [descriptorsFrom_length]
    · have hta : typeAllowed tools env (fillBuffer (header.content.take 512)) = false := by
        cases h : typeAllowed tools env (fillBuffer (header.content.take 512)) with
        | false => rfl
        | true => exact absurd ((typeAllowed_iff tools env _).mp h) hrej
      have hpart : partError tools env dir (rename.headD true) (0 + pre.length) header
          = some "uploaded file type is not permitted" := by
        unfold partError
        rw [uploadPart_normal]
        simp [hopen, hread, hne, hta]
      have hloop : loopError tools env dir (rename.headD true) 0 request.parts
          = some "uploaded file type is not permitted" := by
        rw [hparts, loopError_append, hpre]
        simp only [loopError, hpart]
      refine ⟨by rw [hR.1, hloop], ?_⟩
      rw [hR.2.1]
      exact (uploadLoop_spec tools env dir (rename.headD true) request.parts 0 []
        (setupLog env dir)).2.1 _ hloop

/-- The allow-list check run on the test image: with `image/png` alone on
the allow-list the JPEG part is refused and nothing is returned; with
`image/jpeg` on the list, first or behind `image/png`, the call stores the
part. -/
theorem UploadFiles_type_check_on_test_image :
    ((UploadFiles { Tools.zero with AllowedFileTypes := ["image/png"] } testEnv
          (formRequest [jpegPart]) "./testdata/uploads/" [false]).err
        = some "uploaded file type is not permitted" ∧
      (UploadFiles { Tools.zero with AllowedFileTypes := ["image/png"] } testEnv
          (formRequest [jpegPart]) "./testdata/uploads/" [false]).files = []) ∧
    (UploadFiles { Tools.zero with AllowedFileTypes := ["image/jpeg", "image/png"] } testEnv
        (formRequest [jpegPart]) "./testdata/uploads/" [false]).err = none ∧
    ((UploadFiles { Tools.zero with AllowedFileTypes := ["image/png", "IMAGE/JPEG"] } testEnv
          ((formRequest [jpegPart]).withParts ([] ++ [jpegPart])) "./testdata/uploads/"
          [false]).err = none ∧
      (UploadFiles { Tools.zero with AllowedFileTypes := ["image/png", "IMAGE/JPEG"] } testEnv
          ((formRequest [jpegPart]).withParts ([] ++ [jpegPart])) "./testdata/uploads/"
          [false]).files.length = 0 + 1) :=
  ⟨(UploadFiles_type_check_after_read { Tools.zero with AllowedFileTypes := ["image/png"] }
      testEnv (formRequest [jpegPart]) "./testdata/uploads/" [false] [] [] jpegPart
      rfl (by decide) (by decide) (by decide) (by decide)).2 (by decide),
    by decide,
    (UploadFiles_type_check_after_read
      { Tools.zero with AllowedFileTypes := ["image/png", "IMAGE/JPEG"] }
      testEnv (formRequest [jpegPart]) "./testdata/uploads/" [false] [] [] jpegPart
      rfl (by decide) (by decide) (by decide) (by decide)).1
      (Or.inr ⟨"IMAGE/JPEG", by decide, by decide⟩) (by decide) (by decide) (by decide)⟩

/-- C1, at a part of 0 bytes. The first read of such a part reports end of
file and `UploadFiles` returns that error before the content type is
detected or the allow-list looked at. With an empty allow-list, under which
every part is to be accepted, the call fails with `EOF` and returns no
descriptor. With the allow-list `image/png` the call fails too, and its
error is `EOF`, not "uploaded file type is not permitted". The same part
with one byte in it is stored under the empty allow-list and refused with
the type error under `image/png`. -/
theorem UploadFiles_empty_part_not_type_checked :
    (Tools.zero.AllowedFileTypes = [] ∧
      (UploadFiles Tools.zero testEnv (formRequest [emptyPart]) "uploads/" [false]).err
        = some "EOF" ∧
      (UploadFiles Tools.zero testEnv (formRequest [emptyPart]) "uploads/" [false]).files
        = []) ∧
    ((UploadFiles { Tools.zero with AllowedFileTypes := ["image/png"] } testEnv
          (formRequest [emptyPart]) "uploads/" [false]).err = some "EOF" ∧
      (UploadFiles { Tools.zero with AllowedFileTypes := ["image/png"] } testEnv
          (formRequest [emptyPart]) "uploads/" [false]).err
        ≠ some "uploaded file type is not permitted" ∧
      (UploadFiles { Tools.zero with AllowedFileTypes := ["image/png"] } testEnv
          (formRequest [emptyPart]) "uploads/" [false]).files = []) ∧
    ((UploadFiles Tools.zero testEnv
          (formRequest [{ emptyPart with content := [0x61] }]) "uploads/" [false]).err = none ∧
      (UploadFiles { Tools.zero with AllowedFileTypes := ["image/png"] } testEnv
          (formRequest [{ emptyPart with content := [0x61] }]) "uploads/" [false]).err
        = some "uploaded file type is not permitted") := by
  refine ⟨⟨rfl, by decide, by decide⟩, ⟨by decide, by decide, by decide⟩,
    ⟨by decide, by decide⟩⟩

/-- C2. Whenever `UploadFiles` returns an error the descriptor list it
returns is empty; a part hands back either no descriptor at all or the
earlier ones plus its own, and then its copy finished without error and is
in the event log; every descriptor returned has such a finished copy of the
size it reports. -/
theorem UploadFiles_error_returns_no_descriptor (tools : Tools) (env : Env)
    (request : Request) (dir : String) (rename : List Bool) :
    (∀ e, (UploadFiles tools env request dir rename).err = some e →
        (UploadFiles tools env request dir rename).files = []) ∧
      (∀ (rf : Bool) (k : Nat) (header : FileHeader) (files : List UploadedFile)
          (log : List Event),
        (uploadPart tools env dir rf k header files log).1 = [] ∨
          ((uploadPart tools env dir rf k header files log).1
              = files ++ [descriptorOf env rf k header] ∧
            (uploadPart tools env dir rf k header files log).2.1 = none ∧
            env.copyErr (env.Join dir (descriptorOf env rf k header).NewFileName) = none ∧
            Event.copied (env.Join dir (descriptorOf env rf k header).NewFileName)
              header.content ∈ (uploadPart tools env dir rf k header files log).2.2)) ∧
      (∀ d ∈ (UploadFiles tools env request dir rename).files,
        ∃ data, Event.copied (env.Join dir d.NewFileName) data
            ∈ (UploadFiles tools env request dir rename).log ∧
          d.FileSize = data.length ∧ env.copyErr (env.Join dir d.NewFileName) = none) := by
  have hR := UploadFiles_normal tools env request dir rename
  have hS := uploadLoop_spec tools env dir (rename.headD true) request.parts 0 []
    (setupLog env dir)
  have hL := uploadLoop_log tools env dir (rename.headD true) request.parts 0 []
    (setupLog env dir)
  refine ⟨fun e he => ?_, fun rf k header files log => ?_, fun d hd => ?_⟩
  · rw [hR.2.1]
    rw [hR.1] at he
    cases hs : setupError tools env request dir with
    | some e1 => rfl
    | none =>
      simp only [hs] at he ⊢
      exact hS.2.1 e he
  · rcases uploadPart_cases tools env dir rf k header files log with
      ⟨e, log1, h1, _⟩ | ⟨h1, _, h3⟩
    · left; rw [h1]
    · right
      rw [h1]
      exact ⟨rfl, rfl, h3, by simp [descriptorOf]⟩
  · rw [hR.2.1] at hd
    rw [hR.2.2]
    cases hs : setupError tools env request dir with
    | some e1 => simp [hs] at hd
    | none =>
      simp only [hs] at hd ⊢
      cases hle : loopError tools env dir (rename.headD true) 0 request.parts with
      | some e => rw [hS.2.1 e hle] at hd; simp at hd
      | none =>
        rw [hS.2.2 hle, List.nil_append] at hd
        obtain ⟨i, hi, hid⟩ := List.getElem_of_mem hd
        rw [descriptorsFrom_length] at hi
        have hget : request.parts[i]? = some request.parts[i] := List.getElem?_eq_getElem hi
        have hdesc := descriptorsFrom_getElem? env (rename.headD true) request.parts 0 i _ hget
        have hd' : d = descriptorOf env (rename.headD true) (0 + i) request.parts[i] := by
          have h2 : (descriptorsFrom env (rename.headD true) 0 request.parts)[i]? = some d := by
            rw [List.getElem?_eq_getElem (by rw [descriptorsFrom_length]; exact hi), hid]
          rw [hdesc] at h2
          exact (Option.some.inj h2).symm
        have hev := hL.2 hle i _ hget
        subst hd'
        exact ⟨request.parts[i].content, hev.1, rfl, hev.2⟩

/-- C2, run on a JPEG part followed by a PNG part with only `image/jpeg`
allowed: the first part is copied, the second is refused, and the call
returns the error with an empty list. -/
theorem UploadFiles_error_returns_no_descriptor_witness :
    (UploadFiles { Tools.zero with AllowedFileTypes := ["image/jpeg"] } testEnv
        (formRequest [jpegPart, pngPart]) "uploads/" [false]).files = [] ∧
      Event.copied "uploads/./testdata/test_image.jpg" jpegPart.content ∈
        (UploadFiles { Tools.zero with AllowedFileTypes := ["image/jpeg"] } testEnv
          (formRequest [jpegPart, pngPart]) "uploads/" [false]).log :=
  ⟨(UploadFiles_error_returns_no_descriptor { Tools.zero with AllowedFileTypes := ["image/jpeg"] }
      testEnv (formRequest [jpegPart, pngPart]) "uploads/" [false]).1
      "uploaded file type is not permitted" (by decide),
    by decide⟩

/-- C3, at parts shorter than 512 bytes. For the part `hello` the buffer
handed to the detection is `hello` followed by 507 zero bytes, not its first
`min 512 5` bytes: with a sniffer that calls `hello` plain text the part is
refused by an allow-list holding exactly that type. For a part of length 0
the first read reports end of file and the call fails with `EOF`, even with
no allow-list. -/
theorem UploadFiles_sniffs_padded_buffer :
    fillBuffer ((File.Read { content := helloPart.content, pos := 0 } 512 none).1)
        = bytes "hello" ++ List.replicate 507 0 ∧
      fillBuffer ((File.Read { content := helloPart.content, pos := 0 } 512 none).1)
        ≠ helloPart.content.take (min 512 helloPart.content.length) ∧
      sniffText (helloPart.content.take (min 512 helloPart.content.length))
        = "text/plain; charset=utf-8" ∧
      (UploadFiles { Tools.zero with AllowedFileTypes := ["text/plain; charset=utf-8"] }
          { testEnv with DetectContentType := sniffText }
          (formRequest [helloPart]) "uploads/" [false]).err
        = some "uploaded file type is not permitted" ∧
      (UploadFiles Tools.zero testEnv (formRequest [emptyPart]) "uploads/" [false]).err
        = some "EOF" ∧
      (UploadFiles Tools.zero testEnv (formRequest [emptyPart]) "uploads/" [false]).files
        = [] := by
  refine ⟨by decide, by decide, by decide, by decide, by decide, by decide⟩

/-- C4. When `UploadFiles` succeeds it returns one descriptor per part, in
processing order, and the descriptor of part `i` has the part's original
name, a size equal to the number of bytes copied, which are all bytes of the
part, and as new name the original name when the rename flag is false, and
the time stamp, an underscore, 20 characters of the random-string alphabet
and the extension of the original name when the flag is true or omitted. -/
theorem UploadFiles_descriptor_fields (tools : Tools) (env : Env) (request : Request)
    (dir : String) (rename : List Bool)
    (hok : (UploadFiles tools env request dir rename).err = none) :
    (UploadFiles tools env request dir rename).files.length = request.parts.length ∧
      ∀ (i : Nat) (header : FileHeader), request.parts[i]? = some header →
        ∃ d, (UploadFiles tools env request dir rename).files[i]? = some d ∧
          d.OriginalFileName = header.Filename ∧
          d.FileSize = header.content.length ∧
          Event.copied (env.Join dir d.NewFileName) header.content
            ∈ (UploadFiles tools env request dir rename).log ∧
          (rename.head? = some false → d.NewFileName = header.Filename) ∧
          (rename.head? ≠ some false →
            ∃ token : String, token.length = 20 ∧
              (∀ c ∈ token.data, c ∈ createRandomStringSource.data) ∧
              d.NewFileName = toString (env.now i) ++ "_" ++ token ++ Ext header.Filename) := by
  have hR := UploadFiles_normal tools env request dir rename
  have hS := uploadLoop_spec tools env dir (rename.headD true) request.parts 0 []
    (setupLog env dir)
  have hL := uploadLoop_log tools env dir (rename.headD true) request.parts 0 []
    (setupLog env dir)
  rw [hR.1] at hok
  rw [hR.2.1, hR.2.2]
  cases hs : setupError tools env request dir with
  | some e => simp [hs] at hok
  | none =>
    simp only [hs] at hok ⊢
    rw [hS.2.2 hok, List.nil_append]
    refine ⟨descriptorsFrom_length env _ _ 0, fun i header hi => ?_⟩
    refine ⟨descriptorOf env (rename.headD true) (0 + i) header,
      descriptorsFrom_getElem? env _ _ 0 i header hi, rfl, rfl, (hL.2 hok i header hi).1, ?_, ?_⟩
    · intro hf
      have : rename.headD true = false := by
        cases rename with
        | nil => simp at hf
        | cons a l => simpa using hf
      rw [this]
      simp [descriptorOf, newFileName]
    · intro hf
      have : rename.headD true = true := by
        cases rename with
        | nil => rfl
        | cons a l =>
          cases a with
          | true => rfl
          | false => simp at hf
      refine ⟨RandomString 20 (env.prime (0 + i)), RandomString_length _ _,
        RandomString_mem _ _, ?_⟩
      rw [this]
      simp [descriptorOf, newFileName]

/-- C4, run on the test image with the rename flag omitted and with the flag
set to false. -/
theorem UploadFiles_descriptor_fields_witness :
    (∃ d, (UploadFiles Tools.zero testEnv (formRequest [jpegPart]) "uploads/" []).files[0]?
          = some d ∧
        d.OriginalFileName = "./testdata/test_image.jpg" ∧ d.FileSize = 10 ∧
        d.NewFileName = "1700000000_abcdefghijklmnopqrst.jpg") ∧
      (UploadFiles Tools.zero testEnv (formRequest [jpegPart]) "uploads/" [false]).files
        = [{ NewFileName := "./testdata/test_image.jpg"
             OriginalFileName := "./testdata/test_image.jpg", FileSize := 10 }] := by
  obtain ⟨d, h1, h2, h3, _, _, h6⟩ :=
    (UploadFiles_descriptor_fields Tools.zero testEnv (formRequest [jpegPart]) "uploads/" []
      (by decide)).2 0 jpegPart rfl
  refine ⟨⟨d, h1, h2, h3, ?_⟩, by decide⟩
  have hd : (UploadFiles Tools.zero testEnv (formRequest [jpegPart]) "uploads/" []).files[0]?
      = some { NewFileName := "1700000000_abcdefghijklmnopqrst.jpg"
               OriginalFileName := "./testdata/test_image.jpg", FileSize := 10 } := by
    decide
  rw [hd] at h1
  rw [← Option.some.inj h1]

theorem UploadFiles_rename_head (tools : Tools) (env : Env) (request : Request)
    (dir : String) (rename : List Bool) :
    UploadFiles tools env request dir
        [match rename with
          | [] => true
          | r :: _ => r]
      = UploadFiles tools env request dir rename := by
  cases rename <;> rfl

theorem UploadFiles_files_eq_nil_iff (tools : Tools) (env : Env) (request : Request)
    (dir : String) (rename : List Bool)
    (hok : (UploadFiles tools env request dir rename).err = none) :
    (UploadFiles tools env request dir rename).files = [] ↔ request.parts = [] := by
  have hR := UploadFiles_normal tools env request dir rename
  have hS := uploadLoop_spec tools env dir (rename.headD true) request.parts 0 []
    (setupLog env dir)
  rw [hR.1] at hok
  rw [hR.2.1]
  cases hs : setupError tools env request dir with
  | some e => simp [hs] at hok
  | none =>
    simp only [hs] at hok ⊢
    rw [hS.2.2 hok, List.nil_append, ← List.length_eq_zero, descriptorsFrom_length,
      List.length_eq_zero]

/-- C5. `UploadOneFile` returns the error of `UploadFiles` and no descriptor
when `UploadFiles` fails; it returns the first descriptor when the result is
not empty; when `UploadFiles` succeeds on a request without a file part it
does not return but stops with an index out of range; and it stops that way
in no other case, so the index 0 is in range exactly when a successful
request carries at least one file part. -/
theorem UploadOneFile_first_descriptor (tools : Tools) (env : Env) (request : Request)
    (dir : String) (rename : List Bool) :
    (∀ e, (UploadFiles tools env request dir rename).err = some e →
        UploadOneFile tools env request dir rename = OneFileResult.returned none (some e)) ∧
      (∀ d rest, (UploadFiles tools env request dir rename).err = none →
        (UploadFiles tools env request dir rename).files = d :: rest →
        UploadOneFile tools env request dir rename = OneFileResult.returned (some d) none) ∧
      ((UploadFiles tools env request dir rename).err = none → request.parts = [] →
        UploadOneFile tools env request dir rename
          = OneFileResult.panicked "runtime error: index out of range [0] with length 0") ∧
      ((∃ msg, UploadOneFile tools env request dir rename = OneFileResult.panicked msg) ↔
        (UploadFiles tools env request dir rename).err = none ∧ request.parts = []) := by
  have hU : UploadOneFile tools env request dir rename =
      match (UploadFiles tools env request dir rename).err with
      | some err => OneFileResult.returned none (some err)
      | none =>
        match (UploadFiles tools env request dir rename).files with
        | [] => OneFileResult.panicked "runtime error: index out of range [0] with length 0"
        | file :: _ => OneFileResult.returned (some file) none := by
    unfold UploadOneFile
    simp only [UploadFiles_rename_head]
  refine ⟨fun e he => by rw [hU, he], fun d rest he hf => by rw [hU, he, hf],
    fun he hp => ?_, ?_⟩
  · rw [hU, he, (UploadFiles_files_eq_nil_iff tools env request dir rename he).2 hp]
  · constructor
    · rintro ⟨msg, hmsg⟩
      rw [hU] at hmsg
      cases he : (UploadFiles tools env request dir rename).err with
      | some e => simp [he] at hmsg
      | none =>
        refine ⟨rfl, (UploadFiles_files_eq_nil_iff tools env request dir rename he).1 ?_⟩
        cases hf : (UploadFiles tools env request dir rename).files with
        | nil => rfl
        | cons a l => simp [he, hf] at hmsg
    · rintro ⟨he, hp⟩
      exact ⟨_, by
        rw [hU, he, (UploadFiles_files_eq_nil_iff tools env request dir rename he).2 hp]⟩

/-- C5, run on a request without a file part, on the test image, and on a
part of a type that is not allowed. -/
theorem UploadOneFile_first_descriptor_witness :
    UploadOneFile Tools.zero testEnv (formRequest []) "uploads/" [true]
        = OneFileResult.panicked "runtime error: index out of range [0] with length 0" ∧
      UploadOneFile Tools.zero testEnv (formRequest [jpegPart]) "uploads/" [false]
        = OneFileResult.returned
            (some { NewFileName := "./testdata/test_image.jpg"
                    OriginalFileName := "./testdata/test_image.jpg", FileSize := 10 }) none ∧
      UploadOneFile { Tools.zero with AllowedFileTypes := ["image/png"] } testEnv
          (formRequest [jpegPart]) "uploads/" []
        = OneFileResult.returned none (some "uploaded file type is not permitted") :=
  ⟨(UploadOneFile_first_descriptor Tools.zero testEnv (formRequest []) "uploads/" [true]).2.2.1
      (by decide) rfl,
    (UploadOneFile_first_descriptor Tools.zero testEnv (formRequest [jpegPart]) "uploads/"
      [false]).2.1 _ [] (by decide) (by decide),
    (UploadOneFile_first_descriptor { Tools.zero with AllowedFileTypes := ["image/png"] } testEnv
      (formRequest [jpegPart]) "uploads/" []).1 _ (by decide)⟩

/-! ## JSON reading: the decoder over the limited body -/

theorem jsonDecoder_fields (tools : Tools) (body : List Nat) :
    (jsonDecoder tools body).buf = body.take (maxBytes tools).toNat ∧
      (jsonDecoder tools body).err = none ∧
      (jsonDecoder tools body).ending
        = (if (body.length : Int) ≤ (maxBytes tools).toNat then ReadEnd.EOF
            else ReadEnd.tooLarge) := by
  have h1 : (if maxBytes tools < 0 then 0 else maxBytes tools).toNat = (maxBytes tools).toNat := by
    split <;> omega
  have h2 : ((if maxBytes tools < 0 then 0 else maxBytes tools) : Int)
      = ((maxBytes tools).toNat : Int) := by
    split <;> omega
  have hr : MaxBytesReader body (maxBytes tools) =
      (body.take (maxBytes tools).toNat,
        if (body.length : Int) ≤ (maxBytes tools).toNat then ReadEnd.EOF
        else ReadEnd.tooLarge) := by
    unfold MaxBytesReader
    simp only [h1]
    rw [h2]
  unfold jsonDecoder NewDecoder Decoder.DisallowUnknownFields
  rw [hr]
  cases tools.AllowUnknownFields <;> exact ⟨rfl, rfl, rfl⟩

theorem jsonDecoder_tooLarge (tools : Tools) (body : List Nat)
    (hlong : (maxBytes tools).toNat < body.length) :
    (jsonDecoder tools body).ending = ReadEnd.tooLarge := by
  rw [(jsonDecoder_fields tools body).2.2]
  have : ¬ ((body.length : Int) ≤ ((maxBytes tools).toNat : Int)) := by omega
  rw [if_neg this]

/-- A decoder without a sticky error over a reader that ends with "too
large" never reports end of file; when `Decode` returns no error the decoder
is again in such a state. -/
theorem Decode_tooLarge (lib : JSONLib) (unmarshal : List Nat → Option DecodeError)
    (dec : Decoder) (herr : dec.err = none) (hend : dec.ending = ReadEnd.tooLarge) :
    ((dec.Decode lib unmarshal).1 = none →
        (dec.Decode lib unmarshal).2.err = none ∧
          (dec.Decode lib unmarshal).2.ending = ReadEnd.tooLarge) ∧
      ((∀ v, unmarshal v ≠ some DecodeError.EOF) →
        (dec.Decode lib unmarshal).1 ≠ some DecodeError.EOF) ∧
      ((∃ b, lib.scan dec.buf = Scan.needMore b) →
        (dec.Decode lib unmarshal).1 = some (DecodeError.other "http: request body too large")) := by
  cases hs : lib.scan dec.buf with
  | value n =>
    have hd : dec.Decode lib unmarshal = (unmarshal (dec.buf.take n),
        { dec with buf := dec.buf.drop n, consumed := dec.consumed + n }) := by
      simp only [Decoder.Decode, herr, hs]
    rw [hd]
    refine ⟨fun _ => ⟨herr, hend⟩, fun h => h _, ?_⟩
    rintro ⟨b, hb⟩
    cases hb
  | syntaxError msg offset =>
    have hd : (dec.Decode lib unmarshal).1
        = some (DecodeError.SyntaxError msg (dec.consumed + offset)) := by
      simp only [Decoder.Decode, herr, hs]
    rw [hd]
    refine ⟨fun h => by simp at h, fun _ => by simp, ?_⟩
    rintro ⟨b, hb⟩
    cases hb
  | needMore b =>
    have hd : (dec.Decode lib unmarshal).1
        = some (DecodeError.other "http: request body too large") := by
      simp only [Decoder.Decode, herr, hs, hend]
    rw [hd]
    refine ⟨fun h => by simp at h, fun _ => by simp, fun _ => rfl⟩

theorem toDecodeError_ne_EOF (lib : JSONLib) (dec : Decoder) (v : List Nat) :
    (lib.unmarshalEmpty dec.disallowUnknown v).map (EmptyStructError.toDecodeError lib)
      ≠ some DecodeError.EOF := by
  cases lib.unmarshalEmpty dec.disallowUnknown v with
  | none => simp
  | some e => cases e <;> simp [EmptyStructError.toDecodeError]

theorem ReadJSON_eq (tools : Tools) (lib : JSONLib) (body : List Nat) (data : Destination) :
    ReadJSON tools lib body data =
      match (firstDecode tools lib body data).1 with
      | some err => some (readError lib (maxBytes tools) err)
      | none =>
        match (secondDecode lib (firstDecode tools lib body data).2).1 with
        | some DecodeError.EOF => none
        | _ => some "body must contain only one JSON value" := by
  unfold ReadJSON
  rcases h : firstDecode tools lib body data with ⟨e, dec⟩
  cases e <;> rfl

/-! ## JSON reading: the claims -/

/-- C6. When the first value of the body decodes into the destination
without error, `ReadJSON` returns no error exactly when the attempt to
decode a second value reports end of input, and in every other case it
returns "body must contain only one JSON value". -/
theorem ReadJSON_only_one_value (tools : Tools) (lib : JSONLib) (body : List Nat)
    (data : Destination) (hfirst : (firstDecode tools lib body data).1 = none) :
    (ReadJSON tools lib body data = none ↔
        (secondDecode lib (firstDecode tools lib body data).2).1 = some DecodeError.EOF) ∧
      ((secondDecode lib (firstDecode tools lib body data).2).1 ≠ some DecodeError.EOF →
        ReadJSON tools lib body data = some "body must contain only one JSON value") := by
  rw [ReadJSON_eq, hfirst]
  cases h : (secondDecode lib (firstDecode tools lib body data).2).1 with
  | none => simp
  | some e => cases e <;> simp

/-- C6, run on the two bodies of the test table: one object is read without
error, two objects in a row are refused. -/
theorem ReadJSON_only_one_value_witness :
    ReadJSON { Tools.zero with MaxJSONSize := 1024 } testLib
        (bytes "\x7b\"foo\":\"bar\"\x7d") anyValue = none ∧
      ReadJSON { Tools.zero with MaxJSONSize := 1024 } testLib
        (bytes "\x7b\"foo\": \"bar\"\x7d\x7b\"alpha\":\"beta\"\x7d") anyValue
        = some "body must contain only one JSON value" :=
  ⟨(ReadJSON_only_one_value { Tools.zero with MaxJSONSize := 1024 } testLib
      (bytes "\x7b\"foo\":\"bar\"\x7d") anyValue (by decide)).1.2 (by decide),
    (ReadJSON_only_one_value { Tools.zero with MaxJSONSize := 1024 } testLib
      (bytes "\x7b\"foo\": \"bar\"\x7d\x7b\"alpha\":\"beta\"\x7d") anyValue (by decide)).2 (by decide)⟩

/-- C7 as stated fails: with `MaxJSONSize = 13` the 14 byte body
`{"foo":"bar"}` plus a line feed is longer than the cap, yet the error is
"body must contain only one JSON value", not the body-too-large error. -/
theorem ReadJSON_over_cap_counterexample :
    maxBytes { Tools.zero with MaxJSONSize := 13 } = 13 ∧
      (13 : Int) < (bytes "\x7b\"foo\":\"bar\"\x7d\n").length ∧
      ReadJSON { Tools.zero with MaxJSONSize := 13 } testLib
          (bytes "\x7b\"foo\":\"bar\"\x7d\n") anyValue
        = some "body must contain only one JSON value" ∧
      ReadJSON { Tools.zero with MaxJSONSize := 13 } testLib
          (bytes "\x7b\"foo\":\"bar\"\x7d\n") anyValue
        ≠ some "body must not be larger than 13 bytes" := by
  refine ⟨by decide, by decide, by decide, by decide⟩

/-- C7, amended. `ReadJSON` reads at most `MaxJSONSize` bytes of the body
when `MaxJSONSize` is not zero and at most 1,048,576 when it is zero, and a
body longer than that cap always makes it fail. The error is "body must not
be larger than <cap> bytes" when the first value is not complete within the
cap; when the first value decodes within the cap the error is "body must
contain only one JSON value". -/
theorem ReadJSON_body_over_cap (tools : Tools) (lib : JSONLib) (body : List Nat)
    (data : Destination) (hlong : (maxBytes tools).toNat < body.length) :
    maxBytes tools = (if tools.MaxJSONSize ≠ 0 then tools.MaxJSONSize else 1048576) ∧
      (jsonDecoder tools body).buf = body.take (maxBytes tools).toNat ∧
      ReadJSON tools lib body data ≠ none ∧
      ((∃ b, lib.scan (body.take (maxBytes tools).toNat) = Scan.needMore b) →
        ReadJSON tools lib body data
          = some ("body must not be larger than " ++ toString (maxBytes tools) ++ " bytes")) ∧
      ((firstDecode tools lib body data).1 = none →
        ReadJSON tools lib body data = some "body must contain only one JSON value") := by
  have hf := jsonDecoder_fields tools body
  have hend := jsonDecoder_tooLarge tools body hlong
  have hD := Decode_tooLarge lib (data (jsonDecoder tools body).disallowUnknown)
    (jsonDecoder tools body) hf.2.1 hend
  have hsecond : (firstDecode tools lib body data).1 = none →
      (secondDecode lib (firstDecode tools lib body data).2).1 ≠ some DecodeError.EOF := by
    intro h1
    have h2 := hD.1 h1
    exact (Decode_tooLarge lib _ _ h2.1 h2.2).2.1
      (toDecodeError_ne_EOF lib (firstDecode tools lib body data).2)
  have honly : (firstDecode tools lib body data).1 = none →
      ReadJSON tools lib body data = some "body must contain only one JSON value" := by
    intro h1
    have h2 := hsecond h1
    rw [ReadJSON_eq, h1]
    cases h : (secondDecode lib (firstDecode tools lib body data).2).1 with
    | none => rfl
    | some e =>
      rw [h] at h2
      cases e <;> first | rfl | exact absurd rfl h2
  refine ⟨rfl, hf.1, ?_, ?_, honly⟩
  · cases h1 : (firstDecode tools lib body data).1 with
    | none => rw [honly h1]; simp
    | some e => rw [ReadJSON_eq, h1]; simp
  · intro hb
    rw [← hf.1] at hb
    have h1 : (firstDecode tools lib body data).1
        = some (DecodeError.other "http: request body too large") := hD.2.2 hb
    rw [ReadJSON_eq, h1]
    have hp : HasPrefix "http: request body too large" "json: unknown field" = false := by
      decide
    have : readError lib (maxBytes tools) (DecodeError.other "http: request body too large")
        = "body must not be larger than " ++ toString (maxBytes tools) ++ " bytes" := by
      simp only [readError, DecodeError.Error, hp, Bool.false_eq_true, if_false, if_true]
    simp only [this]

/-- C7 amended, run on the test table's body with `MaxJSONSize = 5`. -/
theorem ReadJSON_body_over_cap_witness :
    ReadJSON { Tools.zero with MaxJSONSize := 5 } testLib
        (bytes "\x7b\"foo\": \"bar\"\x7d") anyValue
      = some "body must not be larger than 5 bytes" :=
  (ReadJSON_body_over_cap { Tools.zero with MaxJSONSize := 5 } testLib
    (bytes "\x7b\"foo\": \"bar\"\x7d") anyValue (by decide)).2.2.2.1 ⟨false, by decide⟩

/-! ## JSON writing: the header map -/

theorem canonical_content_type : CanonicalMIMEHeaderKey "Content-Type" = "Content-Type" := by
  decide

theorem mergeHeaders_fields (header : Header) :
    ∀ w : ResponseWriter,
      (mergeHeaders w header).wroteHeader = w.wroteHeader ∧
      (mergeHeaders w header).Code = w.Code ∧
      (mergeHeaders w header).snapHeader = w.snapHeader ∧
      (mergeHeaders w header).Body = w.Body ∧
      (mergeHeaders w header).writeErr = w.writeErr := by
  induction header with
  | nil => intro w; exact ⟨rfl, rfl, rfl, rfl, rfl⟩
  | cons a l ih =>
    intro w
    simpa [mergeHeaders] using ih { w with HeaderMap := w.HeaderMap.assign a.1 a.2 }

theorem mergeHeaders_absent (header : Header) (key : String) :
    ∀ w : ResponseWriter, key ∉ header.map Prod.fst →
      (mergeHeaders w header).HeaderMap.get key = w.HeaderMap.get key := by
  induction header with
  | nil => intro w _; rfl
  | cons a l ih =>
    intro w hk
    simp only [List.map_cons, List.mem_cons, not_or] at hk
    have h := ih { w with HeaderMap := w.HeaderMap.assign a.1 a.2 } hk.2
    have hne : (key == a.1) = false := by simpa using hk.1
    simp only [mergeHeaders, List.foldl_cons] at h ⊢
    rw [h]
    simp [Header.get, Header.assign, List.lookup, hne]

theorem mergeHeaders_present (header : Header) (key : String) (value : List String) :
    ∀ w : ResponseWriter, (header.map Prod.fst).Nodup → (key, value) ∈ header →
      (mergeHeaders w header).HeaderMap.get key = some value := by
  induction header with
  | nil => intro w _ h; simp at h
  | cons a l ih =>
    intro w hnd hmem
    simp only [List.map_cons, List.nodup_cons] at hnd
    simp only [mergeHeaders, List.foldl_cons]
    rcases List.mem_cons.1 hmem with h | h
    · subst h
      have := mergeHeaders_absent l key { w with HeaderMap := w.HeaderMap.assign key value } hnd.1
      simp only [mergeHeaders] at this
      rw [this]
      simp [Header.get, Header.assign, List.lookup]
    · exact ih _ hnd.2 h

/-! ## JSON writing: the steps of `WriteJSON` -/

/-- What `WriteJSON` does once the data is marshalled into `output`. -/
theorem WriteJSON_normal {α : Type} (Marshal : α → Except String (List Nat))
    (w : ResponseWriter) (status : Int) (data : α) (headers : List Header)
    (output : List Nat) (hm : Marshal data = Except.ok output)
    (hfresh : w.wroteHeader = false) :
    WriteJSON Marshal w status data headers =
      if status < 100 ∨ status > 999 then
        WriteResult.panicked ("invalid WriteHeader code " ++ toString status)
      else if output.length = 0 then
        WriteResult.returned none
          { w with
            HeaderMap := (mergeHeaders w (headers.headD [])).HeaderMap.Set
              "Content-Type" "application/json"
            wroteHeader := true, Code := status
            snapHeader := (mergeHeaders w (headers.headD [])).HeaderMap.Set
              "Content-Type" "application/json" }
      else if bodyAllowedForStatus status = false then
        WriteResult.returned (some ErrBodyNotAllowed)
          { w with
            HeaderMap := (mergeHeaders w (headers.headD [])).HeaderMap.Set
              "Content-Type" "application/json"
            wroteHeader := true, Code := status
            snapHeader := (mergeHeaders w (headers.headD [])).HeaderMap.Set
              "Content-Type" "application/json" }
      else
        match w.writeErr with
        | some err =>
          WriteResult.returned (some err)
            { w with
              HeaderMap := (mergeHeaders w (headers.headD [])).HeaderMap.Set
                "Content-Type" "application/json"
              wroteHeader := true, Code := status
              snapHeader := (mergeHeaders w (headers.headD [])).HeaderMap.Set
                "Content-Type" "application/json" }
        | none =>
          WriteResult.returned none
            { w with
              HeaderMap := (mergeHeaders w (headers.headD [])).HeaderMap.Set
                "Content-Type" "application/json"
              wroteHeader := true, Code := status
              snapHeader := (mergeHeaders w (headers.headD [])).HeaderMap.Set
                "Content-Type" "application/json"
              Body := w.Body ++ output } := by
  have hh : (match headers with
      | [] => w
      | header :: _ => mergeHeaders w header) = mergeHeaders w (headers.headD []) := by
    cases headers <;> rfl
  have hf := mergeHeaders_fields (headers.headD []) w
  unfold WriteJSON
  simp only [hm, hh, ResponseWriter.WriteHeader, ResponseWriter.Write, hf.1, hfresh,
    Bool.false_eq_true, if_false]
  by_cases hc : status < 100 ∨ status > 999
  · simp only [hc, if_true]
  · simp only [hc, if_false, if_true, hf.2.1, hf.2.2.1, hf.2.2.2.1, hf.2.2.2.2]
    by_cases hl : output.length = 0
    · simp only [hl, if_true]
    · simp only [hl, if_false]
      by_cases hb : bodyAllowedForStatus status = false
      · simp only [hb, if_true]
      · simp only [hb, if_false]
        cases hw : w.writeErr <;> simp [hf.2.2.2.2, hw]

/-! ## JSON writing: the claims -/

/-- C8. After a successful `WriteJSON` on a response whose status line was
not out, the response has the given status code, the JSON serialisation of
the value appended to its body, `Content-Type: application/json` whatever
the caller supplied, under every other key of the caller's header map the
caller's values, and under every other key the caller did not supply what
was there before. -/
theorem WriteJSON_response {α : Type} (Marshal : α → Except String (List Nat))
    (w : ResponseWriter) (status : Int) (data : α) (headers : List Header)
    (w' : ResponseWriter) (hfresh : w.wroteHeader = false)
    (hkeys : ((headers.headD []).map Prod.fst).Nodup)
    (hok : WriteJSON Marshal w status data headers = WriteResult.returned none w') :
    ∃ output, Marshal data = Except.ok output ∧
      w'.Code = status ∧
      w'.Body = w.Body ++ output ∧
      w'.snapHeader.get "Content-Type" = some ["application/json"] ∧
      (∀ key value, key ≠ "Content-Type" → (key, value) ∈ headers.headD [] →
        w'.snapHeader.get key = some value) ∧
      (∀ key, key ≠ "Content-Type" → key ∉ (headers.headD []).map Prod.fst →
        w'.snapHeader.get key = w.HeaderMap.get key) ∧
      w'.HeaderMap = w'.snapHeader := by
  cases hm : Marshal data with
  | error err =>
    unfold WriteJSON at hok
    simp [hm] at hok
  | ok output =>
    rw [WriteJSON_normal Marshal w status data headers output hm hfresh] at hok
    have hget : ∀ key, key ≠ "Content-Type" →
        Header.get ((mergeHeaders w (headers.headD [])).HeaderMap.Set
          "Content-Type" "application/json") key
          = (mergeHeaders w (headers.headD [])).HeaderMap.get key := by
      intro key hkey
      have hne : (key == "Content-Type") = false := by simpa using hkey
      simp [Header.Set, Header.assign, Header.get, canonical_content_type, List.lookup, hne]
    have hct : Header.get ((mergeHeaders w (headers.headD [])).HeaderMap.Set
        "Content-Type" "application/json") "Content-Type" = some ["application/json"] := by
      simp [Header.Set, Header.assign, Header.get, canonical_content_type, List.lookup]
    have hcaller : ∀ key value, key ≠ "Content-Type" → (key, value) ∈ headers.headD [] →
        Header.get ((mergeHeaders w (headers.headD [])).HeaderMap.Set
          "Content-Type" "application/json") key = some value := by
      intro key value hkey hmem
      rw [hget key hkey]
      exact mergeHeaders_present _ key value w hkeys hmem
    have hkept : ∀ key, key ≠ "Content-Type" → key ∉ (headers.headD []).map Prod.fst →
        Header.get ((mergeHeaders w (headers.headD [])).HeaderMap.Set
          "Content-Type" "application/json") key = Header.get w.HeaderMap key := by
      intro key hkey habs
      rw [hget key hkey]
      exact mergeHeaders_absent _ key w habs
    by_cases hc : status < 100 ∨ status > 999
    · simp [hc] at hok
    · simp only [hc, if_false] at hok
      by_cases hl : output.length = 0
      · simp only [hl, if_true, WriteResult.returned.injEq, true_and] at hok
        subst hok
        have hout : output = [] := List.length_eq_zero.mp hl
        exact ⟨output, rfl, rfl, by simp [hout], hct, hcaller, hkept, rfl⟩
      · simp only [hl, if_false] at hok
        cases hb : bodyAllowedForStatus status with
        | false => simp [hb] at hok
        | true =>
          simp only [hb, Bool.true_eq_false, if_false] at hok
          cases hw : w.writeErr with
          | some err => simp [hw] at hok
          | none =>
            simp only [hw, WriteResult.returned.injEq, true_and] at hok
            subst hok
            exact ⟨output, rfl, rfl, rfl, hct, hcaller, hkept, rfl⟩

/-- C8, run as in the test: status 200, the envelope with message `foo`,
and the caller's header `Foo: BAR`, on a response that already carries a
header `X-Id`. -/
theorem WriteJSON_response_witness :
    ∃ w', WriteJSON marshalJSONResponse { NewRecorder with HeaderMap := [("X-Id", ["7"])] } 200
          { Error := false, Message := bytes "foo", Data := none } [[("Foo", ["BAR"])]]
        = WriteResult.returned none w' ∧
      w'.Code = 200 ∧
      w'.Body = bytes "\x7b\"error\":false,\"message\":\"foo\"\x7d" ∧
      w'.snapHeader.get "Content-Type" = some ["application/json"] ∧
      w'.snapHeader.get "Foo" = some ["BAR"] ∧
      w'.snapHeader.get "X-Id" = some ["7"] := by
  have hrun : WriteJSON marshalJSONResponse { NewRecorder with HeaderMap := [("X-Id", ["7"])] }
      200 { Error := false, Message := bytes "foo", Data := none } [[("Foo", ["BAR"])]]
      = WriteResult.returned none
          { HeaderMap := [("Content-Type", ["application/json"]), ("Foo", ["BAR"]), ("X-Id", ["7"])]
            wroteHeader := true, Code := 200
            snapHeader := [("Content-Type", ["application/json"]), ("Foo", ["BAR"]),
              ("X-Id", ["7"])]
            Body := bytes "\x7b\"error\":false,\"message\":\"foo\"\x7d", writeErr := none } := by
    decide
  obtain ⟨output, hm, hcode, hbody, hct, hcaller, hkept, _⟩ :=
    WriteJSON_response marshalJSONResponse { NewRecorder with HeaderMap := [("X-Id", ["7"])] }
      200 { Error := false, Message := bytes "foo", Data := none } [[("Foo", ["BAR"])]] _
      rfl (by decide) hrun
  refine ⟨_, hrun, hcode, by decide, hct, hcaller "Foo" ["BAR"] (by decide) (by decide), ?_⟩
  rw [hkept "X-Id" (by decide) (by decide)]
  decide

/-! ## Posting JSON to a remote endpoint: the claim -/

/-- C10 as stated fails: on the test's call the response comes back with
its body already closed. -/
theorem PostJSONToRemote_closes_body :
    (PostJSONToRemote marshalFoo testNet remoteURI { Bar := bytes "bar" } [testClient]).err
        = none ∧
      (PostJSONToRemote marshalFoo testNet remoteURI { Bar := bytes "bar" } [testClient]).response
        = some { StatusCode := 200, Header := [], Body := bytes "ok", bodyClosed := true } ∧
      testClient
          { Method := "POST", URL := "http://example.com/some/path"
            Header := [("Content-Type", ["application/json"])]
            Body := bytes "\x7b\"bar\":\"bar\"\x7d" }
        = Except.ok { StatusCode := 200, Header := [], Body := bytes "ok", bodyClosed := false } := by
  refine ⟨by decide, by decide, rfl⟩

/-- C10, amended. When marshalling, building the request and the transport
succeed, `PostJSONToRemote` hands the client one POST request for the URL
with the JSON body and `Content-Type: application/json`, and returns the
client's response with its body closed by the deferred `Close`, that
response's status code and no error. When marshalling fails it returns the
error with status 0 and no response, and no request is handed to any
client. -/
theorem PostJSONToRemote_result {α : Type} (Marshal : α → Except String (List Nat))
    (net : Net) (uri : URL) (data : α) (client : List Client) :
    (∀ jsonData response,
      Marshal data = Except.ok jsonData →
      net.urlErr (net.URLString uri) = none →
      (client.headD net.defaultClient)
          { Method := "POST", URL := net.URLString uri
            Header := [("Content-Type", ["application/json"])], Body := jsonData }
        = Except.ok response →
      PostJSONToRemote Marshal net uri data client =
        { response := some { response with bodyClosed := true }
          status := response.StatusCode, err := none
          sent := [{ Method := "POST", URL := net.URLString uri
                     Header := [("Content-Type", ["application/json"])], Body := jsonData }] }) ∧
      (∀ err, Marshal data = Except.error err →
        PostJSONToRemote Marshal net uri data client =
          { response := none, status := 0, err := some err, sent := [] }) := by
  have hc : (match client with
      | [] => net.defaultClient
      | c :: _ => c) = client.headD net.defaultClient := by
    cases client <;> rfl
  refine ⟨fun jsonData response hm hurl hdo => ?_, fun err hm => ?_⟩
  · unfold PostJSONToRemote NewRequest
    simp only [hm, hurl, hc]
    have hset : Header.Set [] "Content-Type" "application/json"
        = [("Content-Type", ["application/json"])] := by decide
    simp only [hset, hdo]
  · unfold PostJSONToRemote
    simp only [hm]

/-- C10 amended, run on the test's call and on a value that cannot be
marshalled. -/
theorem PostJSONToRemote_result_witness :
    (PostJSONToRemote marshalFoo testNet remoteURI { Bar := bytes "bar" } [testClient]).status
        = 200 ∧
      (PostJSONToRemote (fun _ : Unit => Except.error "json: unsupported type: chan int")
          testNet remoteURI () [testClient]).sent = [] := by
  have h1 := (PostJSONToRemote_result marshalFoo testNet remoteURI { Bar := bytes "bar" }
    [testClient]).1 _ _ rfl rfl rfl
  have h2 := (PostJSONToRemote_result (fun _ : Unit => Except.error "json: unsupported type: chan int")
    testNet remoteURI () [testClient]).2 _ rfl
  rw [h1, h2]
  exact ⟨rfl, rfl⟩

/-! ## UTF-8 and the JSON string literal: encoding and decoding agree -/

theorem EncodeRune_length_pos (r : Nat) : 0 < (EncodeRune r).length := by
  unfold EncodeRune
  split_ifs <;> simp

theorem createRandomStringSource_eq :
    createRandomStringSource
      = "abcdefghijklmnopqrstuvwxyzABCDEFGHIJKLMNOPQRSTUVWXYZ0123456789~!@#$" := by
  decide

/-- The index `x % y` that `RandomString` computes from a prime is below the
length of the alphabet. -/
theorem randomIndex_lt (p : Nat) :
    p % 2 ^ 64 % (createRandomStringSource.data.length % 2 ^ 64)
      < createRandomStringSource.data.length := by
  rw [createRandomStringSource_length]
  have h67 : (67 % 2 ^ 64 : Nat) = 67 := by norm_num
  rw [h67]
  exact Nat.mod_lt _ (by norm_num)

theorem RandomString_getElem? (n : Nat) (prime : Nat → Nat) (idx : Nat) (h : idx < n) :
    (RandomString n prime).data[idx]?
      = createRandomStringSource.data[prime idx % 2 ^ 64
          % (createRandomStringSource.data.length % 2 ^ 64)]? := by
  unfold RandomString
  simp only [List.getElem?_map, List.getElem?_range h, Option.map_some']
  rw [List.getD_eq_getElem _ _ (randomIndex_lt (prime idx)),
    List.getElem?_eq_getElem (randomIndex_lt (prime idx))]

/-- C11. For every `n` and every sequence of values the random source hands
back, `RandomString n` has exactly `n` characters, each of them one of the
67 characters `a`-`z`, `A`-`Z`, `0`-`9`, `~!@#$`; the index computed from a
random value is below 67, and the character at position `idx` is the
alphabet's character at that index. -/
theorem RandomString_length_and_alphabet (n : Nat) (prime : Nat → Nat) :
    (RandomString n prime).length = n ∧
      (∀ c ∈ (RandomString n prime).data, c ∈ createRandomStringSource.data) ∧
      createRandomStringSource
        = "abcdefghijklmnopqrstuvwxyzABCDEFGHIJKLMNOPQRSTUVWXYZ0123456789~!@#$" ∧
      createRandomStringSource.data.length = 67 ∧
      (∀ idx, prime idx % 2 ^ 64 % (createRandomStringSource.data.length % 2 ^ 64)
        < createRandomStringSource.data.length) ∧
      (∀ idx, idx < n →
        ∃ c, (RandomString n prime).data[idx]? = some c ∧
          createRandomStringSource.data[prime idx % 2 ^ 64
            % (createRandomStringSource.data.length % 2 ^ 64)]? = some c) := by
  refine ⟨RandomString_length n prime, RandomString_mem n prime, createRandomStringSource_eq,
    createRandomStringSource_length, fun idx => randomIndex_lt (prime idx), fun idx h => ?_⟩
  obtain ⟨c, hc⟩ : ∃ c, createRandomStringSource.data[prime idx % 2 ^ 64
      % (createRandomStringSource.data.length % 2 ^ 64)]? = some c :=
    ⟨_, List.getElem?_eq_getElem (randomIndex_lt (prime idx))⟩
  exact ⟨c, by rw [RandomString_getElem? n prime idx h, hc], hc⟩

/-- C11, run as in the test: `RandomString 10` on a sample of random values
has length 10 and reads `hijklmnopq`. -/
theorem RandomString_length_and_alphabet_witness :
    (RandomString 10 fun idx => 2 ^ 66 + 7 + idx).length = 10 ∧
      RandomString 10 (fun idx => 2 ^ 66 + 7 + idx) = "hijklmnopq" :=
  ⟨(RandomString_length_and_alphabet 10 fun idx => 2 ^ 66 + 7 + idx).1, by decide⟩

/-! ## Slugs: the code against the reference -/

theorem replaceRuns_congr (hit1 hit2 : Char → Bool) (l : List Char)
    (h : ∀ c ∈ l, hit1 c = hit2 c) :
    ∀ inRun : Bool, replaceRuns hit1 inRun l = replaceRuns hit2 inRun l := by
  induction l with
  | nil => intro inRun; rfl
  | cons a rest ih =>
    intro inRun
    have ha : hit1 a = hit2 a := h a (List.mem_cons_self a rest)
    have ih' := ih fun c hc => h c (List.mem_cons_of_mem a hc)
    simp only [replaceRuns, ha, ih']

/-- On every input in which no character lower-cases to an opening bracket,
`CreateSlug` returns what the reference returns. -/
theorem CreateSlug_eq_reference (lower : Char → Char) (s : String)
    (h : ∀ c ∈ s.data, lower c ≠ '[') :
    CreateSlug lower s = slugReference lower s := by
  unfold CreateSlug slugReference ReplaceAllString
  by_cases hs : s = ""
  · simp only [hs, if_true]
  · simp only [hs, if_false]
    have hcongr := replaceRuns_congr (fun c => !inBracketExpression c)
      (fun c => !((97 ≤ c.toNat && c.toNat ≤ 122) || (48 ≤ c.toNat && c.toNat ≤ 57)))
      (s.data.map lower) (by
        intro c hc
        obtain ⟨a, ha, rfl⟩ := List.mem_map.1 hc
        have hne : (lower a == '[') = false := by simpa using h a ha
        simp only [inBracketExpression, hne, Bool.false_or]) false
    rw [hcongr]
    simp only [String.length, List.length_eq_zero]

/-- C12, at inputs with an opening bracket. The pattern in the code is
`[^[a-z\d]+`, whose bracket expression lists `[` next to `a-z` and the
digits, so an opening bracket is kept: `a[b` gives the slug `a[b` where the
reference gives `a-b`, and `[[` gives the slug `[[` where the reference
fails with the zero-length error. On the inputs of the test table the code
gives what the reference gives. -/
theorem CreateSlug_keeps_opening_bracket :
    CreateSlug Char.toLower "a[b" = ("a[b", none) ∧
      slugReference Char.toLower "a[b" = ("a-b", none) ∧
      CreateSlug Char.toLower "[[" = ("[[", none) ∧
      slugReference Char.toLower "[["
        = ("", some "after removing characters, slug is zero length") ∧
      CreateSlug Char.toLower "now is the time" = ("now-is-the-time", none) ∧
      CreateSlug Char.toLower "Now is the time for all GOOD people! + fish & such^123"
        = ("now-is-the-time-for-all-good-people-fish-such-123", none) ∧
      CreateSlug Char.toLower "Good Morning おはようございます" = ("good-morning", none) ∧
      CreateSlug Char.toLower "" = ("", some "empty string not permitted") ∧
      CreateSlug Char.toLower "おはようございます"
        = ("", some "after removing characters, slug is zero length") := by
  refine ⟨by decide, by decide, by decide, by decide, by decide, by decide, by decide,
    by decide, by decide⟩

end Toolkit
